import Mathlib

/-!
# Verification of the messenger backend's asynchronous core

Shallow embedding, in Lean 4, of the parts of the repository that the
specification's claims are about:

* the video-transcode worker's rendition ladder (`apps/workers/video-transcode`),
* the antivirus worker's scan-result handling (`apps/workers/media-antivirus`),
* the media-metadata worker's integrity check (`apps/workers/media-metadata`),
* the image-variants worker (second unit in `apps/realtime/src/index.ts`),
* the media-GC worker (second unit in `apps/workers/media-antivirus/src/index.ts`),
* the idempotency middleware (`apps/api/src/middleware/idempotency.ts`),
* the realtime gateway's topic bookkeeping (`apps/realtime/src/index.ts`),
* the shared Redis-stream consumer-loop shape every worker uses.

External services (Redis, Postgres, S3, clamd, sharp, ffmpeg) are modelled as
explicit state or as abstract parameters; database writes and queue writes are
reified as effect values so that theorems can talk about what a job run does.
-/

namespace Messenger

/-- Antivirus status column of `media_files` (`antivirus_status` enum in
`migrations/003_media.sql`): pending | clean | infected | error. -/
inductive AvStatus where
  | pending
  | clean
  | infected
  | error
deriving DecidableEq, Repr

/-- The fields of a `media_files` row that the workers in scope read or write. -/
structure MediaRecord where
  antivirusStatus : AvStatus
  quarantined : Bool
  sha256 : Option String
  mime : String
deriving DecidableEq, Repr

/-- `quarantined = true` implies `antivirus_status ≠ clean` — the data-model
invariant of spec §3, as a boolean predicate on a row. -/
def avInvariantOk (r : MediaRecord) : Bool :=
  !(r.quarantined && r.antivirusStatus == AvStatus.clean)

/-! ## Video transcode worker: rendition selection

From `apps/workers/video-transcode/src/index.ts`, `selectRenditions`.
The `width` field of each candidate is computed with floating-point
arithmetic from the source aspect ratio and plays no part in which
profiles are selected; the selection depends only on `height`, so the
embedding carries the profile name, height and bitrate. -/

/-- One entry of the candidate rendition ladder. -/
structure Rendition where
  profile : String
  height : Nat
  vbrKbps : Nat
deriving DecidableEq, Repr

/-- The fixed candidate ladder `all` built inside `selectRenditions`, with the
default bitrates `BR_360=800, BR_480=1200, BR_720=2500, BR_1080=4500`. -/
def renditionLadder : List Rendition :=
  [ { profile := "360p",  height := 360,  vbrKbps := 800 },
    { profile := "480p",  height := 480,  vbrKbps := 1200 },
    { profile := "720p",  height := 720,  vbrKbps := 2500 },
    { profile := "1080p", height := 1080, vbrKbps := 4500 } ]

/-- `Math.max(1, Math.min(4, Number(HLS_MAX_VARIANTS) || 4))`: the configured
maximum rendition count, clamped to 1..4.  The environment value is an `Int`
option; `none` stands for a NaN parse and, like `0`, falls back to `4`. -/
def maxVariantsOf (env : Option Int) : Nat :=
  let v : Int := match env with
    | none => 4
    | some n => if n = 0 then 4 else n
  (max 1 (min 4 v)).toNat

/-- `selectRenditions(srcW, srcH)`: keep the ladder profiles whose height is at
most `srcH + 8`, then truncate to the configured maximum count.  `srcW` only
feeds the floating-point width computation and is irrelevant to selection. -/
def selectRenditions (srcH : Nat) (hlsMaxVariantsEnv : Option Int) : List Rendition :=
  (renditionLadder.filter (fun r => r.height ≤ srcH + 8)).take (maxVariantsOf hlsMaxVariantsEnv)

/-- The names of the selected profiles (observer used by the C5 theorem). -/
def selectedProfiles (srcH : Nat) (env : Option Int) : List String :=
  (selectRenditions srcH env).map Rendition.profile

/-! ## Antivirus worker: scan results and the status update

From `apps/workers/media-antivirus/src/index.ts` (first unit):
`ScanResult`, `updateStatus`. -/

/-- Result of `scanWithClamd`: clean, infected with a parsed signature, or an
error (clamd timeout, socket error, stream error, or unrecognized verdict
line). -/
inductive ScanResult where
  | clean
  | infected (signature : String)
  | scanError (error : String)
deriving DecidableEq, Repr

/-- `updateStatus(mediaId, res)`: the `UPDATE media_files SET ...` each scan
result performs, as a row transformation.  Each branch writes
`antivirus_status` and `quarantined` together (timestamps omitted). -/
def updateStatus (res : ScanResult) (r : MediaRecord) : MediaRecord :=
  match res with
  | ScanResult.clean => { r with antivirusStatus := AvStatus.clean, quarantined := false }
  | ScanResult.infected _ => { r with antivirusStatus := AvStatus.infected, quarantined := true }
  | ScanResult.scanError _ => { r with antivirusStatus := AvStatus.error, quarantined := true }

/-! ## Effects

Database writes, object-store writes and queue writes a worker job performs,
reified as values so theorems can talk about a job's side effects. -/

/-- One side effect of a worker job run. -/
inductive Effect where
  /-- `UPDATE media_files SET antivirus_status=..., quarantined=... WHERE id=...` -/
  | dbUpdateAv (mediaId : String) (status : AvStatus) (quarantined : Bool)
  /-- `UPDATE media_files SET sha256=... WHERE id=...` -/
  | dbSetSha (mediaId : String) (sha : String)
  /-- `UPDATE media_files SET mime=... WHERE id=...` -/
  | dbSetMime (mediaId : String) (mime : String)
  /-- `INSERT ... ON CONFLICT` into `media_metadata` (the jsonb `meta` payload,
  produced by ffprobe/exiftool, is outside the embedding). -/
  | metaUpsert (mediaId : String) (mimeDetected : String) (bytes : Nat) (sha : String) (crc : Nat)
  /-- `INSERT ... ON CONFLICT (media_id, profile)` into `media_variants`
  (`durationMs` is NULL for image variants). -/
  | variantUpsert (mediaId : String) (profile : String) (storageKey : String)
      (width : Nat) (height : Nat) (durationMs : Option Nat)
  /-- S3 `PutObject`. -/
  | s3Put (key : String)
  /-- `XADD <stream> * data <payload>`: publish a follow-up job. -/
  | enqueue (stream : String) (mediaId : String) (storageKey : String) (mime : String)
  /-- `XADD <dlq> * reason <reason> data <data>` issued from inside a handler
  (the metadata worker's sha_mismatch incident report; JSON serialization of
  the data triple is abstracted into its fields). -/
  | dlqIncident (reason : String) (mediaId : String) (storageKey : String) (sha : String)
deriving DecidableEq, Repr

/-- A parsed queue job `{ mediaId, storageKey, mime? }` shared by the antivirus,
metadata, image-variants and transcode streams. -/
structure Job where
  mediaId : String
  storageKey : String
  mime : Option String
deriving DecidableEq, Repr

/-- `String.toLowerCase()`, character by character (computable shallow model
of JS case folding; the values in play are ASCII hashes and MIME types). -/
def lowerStr (s : String) : String := String.mk (s.data.map Char.toLower)

/-- Case-sensitive prefix test (`startsWith`). -/
def startsWithStr (s p : String) : Bool := p.data.isPrefixOf s.data

/-- JavaScript `x || d` on an optional number: `undefined` and `0` both fall
back to the default. -/
def jsOr (v : Option Nat) (d : Nat) : Nat :=
  match v with
  | none => d
  | some 0 => d
  | some n => n

/-- JavaScript `x || d` on an optional string: `undefined` and `''` both fall
back to the default. -/
def jsOrStr (v : Option String) (d : String) : String :=
  match v with
  | none => d
  | some s => if s == "" then d else s

/-- `/^image\//i.test(mime)`: case-insensitive `image/` prefix test. -/
def isImageMimeStr (m : String) : Bool := startsWithStr (lowerStr m) "image/"

/-- `isImageMime` of the image-variants worker: false for a missing mime. -/
def isImageMime (m : Option String) : Bool :=
  match m with
  | none => false
  | some s => isImageMimeStr s

/-- `/^video\//i.test(mime)`. -/
def isVideoMimeStr (m : String) : Bool := startsWithStr (lowerStr m) "video/"

/-! ## The shared consumer-loop shape (`readOnce` in every worker)

Every worker's `readOnce` handles one stream entry the same way:
a payload that fails `JSON.parse` is acked and dead-lettered with reason
`bad_json` without invoking the handler; a payload whose handler resolves is
acked; a payload whose handler throws is acked and dead-lettered with reason
`processing_failed` and the error text.  `parse` stands for `JSON.parse`
(external) and `ser` for `JSON.stringify`. -/

/-- An action the consumer loop performs on the broker for one entry. -/
inductive QAction where
  | ack (id : String)
  | dlq (reason : String) (error : Option String) (data : String)
deriving DecidableEq, Repr

/-- What handling one queue entry did: the broker actions, in order, and
whether the job handler was invoked. -/
structure EntryOutcome where
  actions : List QAction
  handlerRan : Bool
deriving DecidableEq, Repr

/-- One iteration of the per-entry body of `readOnce`, common to all five
consumer loops (antivirus, metadata, image-variants, transcode, GC). -/
def handleEntry {J α : Type} (parse : String → Option J) (ser : J → String)
    (process : J → Except String α) (id raw : String) : EntryOutcome :=
  match parse raw with
  | none => ⟨[QAction.ack id, QAction.dlq "bad_json" none raw], false⟩
  | some j =>
    match process j with
    | Except.ok _ => ⟨[QAction.ack id], true⟩
    | Except.error e => ⟨[QAction.ack id, QAction.dlq "processing_failed" (some e) (ser j)], true⟩

/-! ## Antivirus worker: `processJob` and `publishFollowupsIfClean` -/

/-- The `UPDATE` effect `updateStatus` issues for a scan result. -/
def updateStatusEffect (mediaId : String) (res : ScanResult) : Effect :=
  match res with
  | ScanResult.clean => Effect.dbUpdateAv mediaId AvStatus.clean false
  | ScanResult.infected _ => Effect.dbUpdateAv mediaId AvStatus.infected true
  | ScanResult.scanError _ => Effect.dbUpdateAv mediaId AvStatus.error true

/-- `publishFollowupsIfClean(mediaId)`: re-read mime/storage_key and status
from the row (here: the row after `updateStatus`), publish exactly one
follow-up job — image mime to `q:variants.image`, video mime to
`q:transcode.video`, anything else nothing — only if the row is still clean
and unquarantined. -/
def publishFollowupsIfClean (mediaId : String) (row : Option MediaRecord)
    (storageKeyOfRow : String) : List Effect :=
  match row with
  | none => []
  | some r =>
    if r.mime == "" || storageKeyOfRow == "" then []
    else if r.quarantined || r.antivirusStatus != AvStatus.clean then []
    else if isImageMimeStr r.mime then
      [Effect.enqueue "q:variants.image" mediaId storageKeyOfRow r.mime]
    else if isVideoMimeStr r.mime then
      [Effect.enqueue "q:transcode.video" mediaId storageKeyOfRow r.mime]
    else []

/-- Antivirus `processJob`: throw on a bad job or a missing object, scan
(result given as a parameter — clamd is external), apply `updateStatus`, and
on a clean verdict publish the follow-up job.  `record` is the `media_files`
row the job refers to, `rowStorageKey` its `storage_key` column. -/
def avProcessJob (record : Option MediaRecord) (rowStorageKey : String)
    (s3Has : Bool) (scan : ScanResult) (job : Job) : Except String (List Effect) :=
  if job.mediaId == "" || job.storageKey == "" then Except.error "bad_job"
  else if !s3Has then Except.error ("s3_missing:" ++ job.storageKey)
  else
    let upd := [updateStatusEffect job.mediaId scan]
    match scan with
    | ScanResult.clean =>
      Except.ok (upd ++ publishFollowupsIfClean job.mediaId
        (record.map (updateStatus ScanResult.clean)) rowStorageKey)
    | _ => Except.ok upd

/-! ## Video transcode worker: `processJob`

The per-rendition encoded widths come from floating-point arithmetic on the
source aspect ratio (`Math.round(h * (srcW/srcH) / 2) * 2 || default`); they
are supplied by the abstract parameter `rWidth`.  ffmpeg's segment files are
listed at runtime; their uploads are summarized by the per-profile playlist
upload, which is the storage key recorded in `media_variants`. -/

/-- Stringify `antivirus_status` as stored in the database enum. -/
def avStatusStr (s : AvStatus) : String :=
  match s with
  | AvStatus.pending => "pending"
  | AvStatus.clean => "clean"
  | AvStatus.infected => "infected"
  | AvStatus.error => "error"

/-- Transcode `processJob`.  A quarantined or not-clean record (the AV gate)
and an already-transcoded record both make it return normally with no
effects (silent skip). -/
def transcodeProcessJob (record : Option MediaRecord) (hasVidVariants : Bool)
    (s3Has : Bool) (probeW probeH durationMs : Nat) (maxVarEnv : Option Int)
    (rWidth : Rendition → Nat) (job : Job) : Except String (List Effect) :=
  if job.mediaId == "" || job.storageKey == "" then Except.error "bad_job"
  else match record with
  | none => Except.error "media_not_found"
  | some r =>
    if r.quarantined || r.antivirusStatus != AvStatus.clean then Except.ok []
    else if hasVidVariants then Except.ok []
    else if !s3Has then Except.error ("s3_missing:" ++ job.storageKey)
    else if probeW == 0 || probeH == 0 then Except.error "ffprobe_no_dims"
    else
      let rends := selectRenditions probeH maxVarEnv
      if rends.isEmpty then Except.error "no_renditions"
      else
        let basePrefix := "variants/" ++ job.mediaId ++ "/hls"
        let uploads := rends.map (fun r =>
          Effect.s3Put (basePrefix ++ "/" ++ r.profile ++ "/index.m3u8"))
        let master := [Effect.s3Put (basePrefix ++ "/master.m3u8")]
        let upserts := rends.map (fun r =>
          Effect.variantUpsert job.mediaId ("vid_" ++ r.profile ++ "_hls")
            (basePrefix ++ "/" ++ r.profile ++ "/index.m3u8") (rWidth r) r.height
            (some durationMs))
        Except.ok (uploads ++ master ++ upserts)

/-! ## Image variants worker: `processJob`

From the second unit of `apps/realtime/src/index.ts`.  sharp is external: the
output metadata of an encode (`outMeta.width`, `outMeta.height`) is supplied
by the abstract parameter `encodeMeta` (per format and target width), and the
floating-point height fallback `Math.round(w * (meta.height / meta.width))`
by `fallbackH`.  A missing sharp metadata number is `none`. -/

/-- `PROFILES`: fixed target widths. -/
def imgProfiles : List (String × Nat) :=
  [("thumb", 256), ("medium", 720), ("large", 1280)]

/-- `FORMATS`: the two output encodings. -/
def imgFormats : List (String × String) :=
  [("webp", "image/webp"), ("avif", "image/avif")]

/-- The upload and upsert effects of the profile × format loop: for each
profile the target width is `Math.min(meta.width, prof.width)` with
enlargement disabled; the recorded width is the encoder's reported output
width, falling back to the target width. -/
def imageVariantEffects (mediaId : String) (srcW : Nat)
    (encodeMeta : String → Nat → Option Nat × Option Nat)
    (fallbackH : Nat → Nat) : List Effect :=
  imgProfiles.flatMap (fun prof =>
    let targetW := min srcW prof.2
    imgFormats.flatMap (fun fmt =>
      let out := encodeMeta fmt.1 targetW
      let w := jsOr out.1 targetW
      let h := jsOr out.2 (fallbackH w)
      let key := "variants/" ++ mediaId ++ "/images/" ++ prof.1 ++ "." ++ fmt.1
      [Effect.s3Put key,
       Effect.variantUpsert mediaId ("img_" ++ prof.1 ++ "_" ++ fmt.1) key w h none]))

/-- Image-variants `processJob`.  Unlike the transcode worker, a record that is
quarantined or not clean makes it THROW (`media_not_clean_or_quarantined`),
which the consumer loop turns into ack + dead-letter `processing_failed`. -/
def imageProcessJob (record : Option MediaRecord) (s3Has : Bool)
    (srcW srcH : Nat) (encodeMeta : String → Nat → Option Nat × Option Nat)
    (fallbackH : Nat → Nat) (job : Job) : Except String (List Effect) :=
  if job.mediaId == "" || job.storageKey == "" then Except.error "bad_job"
  else match record with
  | none => Except.error "media_not_found"
  | some r =>
    if r.quarantined || r.antivirusStatus != AvStatus.clean then
      Except.error ("media_not_clean_or_quarantined: " ++ avStatusStr r.antivirusStatus)
    else if !(isImageMime job.mime) then
      Except.error ("unsupported_mime:" ++ jsOrStr job.mime "unknown")
    else if !s3Has then Except.error ("s3_missing:" ++ job.storageKey)
    else if srcW == 0 || srcH == 0 then Except.error "image_meta_missing"
    else Except.ok (imageVariantEffects job.mediaId srcW encodeMeta fallbackH)

/-! ## Metadata worker: integrity check and `processJob`

Hashing, CRC, MIME sniffing and ffprobe/exiftool extraction are external
computations over the downloaded bytes; their results (`sha`, `crc`,
`mimeDetected`, `bytes`) are parameters. -/

/-- Result of the sha check: continue, or record quarantined. -/
inductive ShaState where
  | shaOk
  | shaQuarantined
deriving DecidableEq, Repr

/-- `writeShaIfEmptyOrQuarantineOnMismatch`: empty (NULL or `''`) stored hash
is written; a stored hash differing case-insensitively from the computed one
forces `quarantined=true, antivirus_status='error'`. -/
def writeShaIfEmptyOrQuarantineOnMismatch (record : Option MediaRecord)
    (mediaId shaCalculated : String) : Except String (ShaState × List Effect) :=
  match record with
  | none => Except.error "media_not_found"
  | some r =>
    match r.sha256 with
    | none => Except.ok (ShaState.shaOk, [Effect.dbSetSha mediaId shaCalculated])
    | some stored =>
      if stored == "" then
        Except.ok (ShaState.shaOk, [Effect.dbSetSha mediaId shaCalculated])
      else if lowerStr stored != lowerStr shaCalculated then
        Except.ok (ShaState.shaQuarantined, [Effect.dbUpdateAv mediaId AvStatus.error true])
      else
        Except.ok (ShaState.shaOk, [])

/-- `maybeUpdateMime`: update `media_files.mime` if it is empty,
`application/octet-stream` or differs case-insensitively from the detected
one. -/
def maybeUpdateMime (record : Option MediaRecord) (mediaId mimeDetected : String) : List Effect :=
  match record with
  | none => []
  | some r =>
    if r.mime == "" || r.mime == "application/octet-stream"
        || lowerStr r.mime != lowerStr mimeDetected then
      [Effect.dbSetMime mediaId mimeDetected]
    else []

/-- Metadata `processJob`: download, hash, run the integrity check; on a
mismatch dead-letter `sha_mismatch` and stop; otherwise upsert
`media_metadata` and maybe refresh the MIME. -/
def metadataProcessJob (record : Option MediaRecord) (s3Has : Bool)
    (bytes : Nat) (sha : String) (crc : Nat) (mimeDetected : String)
    (job : Job) : Except String (List Effect) :=
  if job.mediaId == "" || job.storageKey == "" then Except.error "bad_job"
  else if !s3Has then Except.error ("s3_missing:" ++ job.storageKey)
  else match writeShaIfEmptyOrQuarantineOnMismatch record job.mediaId sha with
  | Except.error e => Except.error e
  | Except.ok (ShaState.shaQuarantined, e1) =>
    Except.ok (e1 ++ [Effect.dlqIncident "sha_mismatch" job.mediaId job.storageKey sha])
  | Except.ok (ShaState.shaOk, e1) =>
    Except.ok (e1 ++ [Effect.metaUpsert job.mediaId mimeDetected bytes sha crc]
      ++ maybeUpdateMime record job.mediaId mimeDetected)

/-! ## Media-GC worker

Second unit of `apps/workers/media-antivirus/src/index.ts`.  The state is the
object store's key set and the two media tables; deletions are reified as
`GcEffect`s in the order they are issued. -/

/-- A `media_files` row as the GC reads it (`id`, `storage_key`). -/
structure GcMediaRow where
  id : String
  storageKey : String
deriving DecidableEq, Repr

/-- A `media_variants` row as the GC reads it. -/
structure GcVariantRow where
  mediaId : String
  profile : String
  storageKey : String
deriving DecidableEq, Repr

/-- The two media tables. -/
structure GcDb where
  mediaFiles : List GcMediaRow
  mediaVariants : List GcVariantRow
deriving DecidableEq, Repr

/-- GC worker state: relational rows plus the object-store keys. -/
structure GcState where
  db : GcDb
  objects : List String
deriving DecidableEq, Repr

/-- A deletion the GC performs, in issue order. -/
inductive GcEffect where
  /-- S3 `DeleteObjects` over one batch of keys. -/
  | delBatch (keys : List String)
  /-- S3 `DeleteObject` of one key. -/
  | delObj (key : String)
  /-- `DELETE FROM media_files WHERE id=...` (cascades `media_variants`). -/
  | delRow (mediaId : String)
  /-- `DELETE FROM media_variants WHERE media_id=... AND profile=...`. -/
  | delVariantRow (mediaId : String) (profile : String)
deriving DecidableEq, Repr

/-- `fetchVariants`: storage keys of the variants of a media id. -/
def fetchVariants (db : GcDb) (mediaId : String) : List String :=
  (db.mediaVariants.filter (fun v => v.mediaId == mediaId)).map GcVariantRow.storageKey

/-- `fetchOriginalKey`: the original's storage key, if the row exists. -/
def fetchOriginalKey (db : GcDb) (mediaId : String) : Option String :=
  (db.mediaFiles.find? (fun r => r.id == mediaId)).map GcMediaRow.storageKey

/-- Split a key list into batches of `n` (the S3 `DeleteObjects` limit of
1000 per call). -/
def chunksOf (n : Nat) (l : List α) : List (List α) :=
  if hc : l.isEmpty = true ∨ n = 0 then []
  else (l.take n) :: chunksOf n (l.drop n)
termination_by l.length
decreasing_by
  push_neg at hc
  simp only [List.length_drop]
  refine Nat.sub_lt (List.length_pos.mpr ?_) (Nat.pos_of_ne_zero hc.2)
  simpa [List.isEmpty_iff] using hc.1

/-- `s3DeleteMany`: batched delete; removes the keys from the store. -/
def s3DeleteMany (keys : List String) (st : GcState) : GcState × List GcEffect :=
  ({ st with objects := st.objects.filter (fun k => !(keys.contains k)) },
   (chunksOf 1000 keys).map GcEffect.delBatch)

/-- `s3DeleteOne`: delete one key (treating a missing key as already gone). -/
def s3DeleteOne (key : String) (st : GcState) : GcState × List GcEffect :=
  ({ st with objects := st.objects.filter (fun k => k != key) }, [GcEffect.delObj key])

/-- `DELETE FROM media_files WHERE id=$1`: removes the row, and by the
`ON DELETE CASCADE` foreign key of `media_variants.media_id`
(`migrations/003_media.sql`) the media's variant rows. -/
def dbDeleteMediaCascade (db : GcDb) (mediaId : String) : GcDb :=
  { mediaFiles := db.mediaFiles.filter (fun r => r.id != mediaId),
    mediaVariants := db.mediaVariants.filter (fun v => v.mediaId != mediaId) }

/-- `deleteMedia`: S3 variants (batched), then the original object, then the
`media_files` row. -/
def deleteMedia (st : GcState) (mediaId : String) : GcState × List GcEffect :=
  let variantKeys := fetchVariants st.db mediaId
  let orig := fetchOriginalKey st.db mediaId
  let r1 := s3DeleteMany variantKeys st
  let r2 := match orig with
    | some k => s3DeleteOne k r1.1
    | none => (r1.1, ([] : List GcEffect))
  ({ r2.1 with db := dbDeleteMediaCascade r2.1.db mediaId },
   r1.2 ++ r2.2 ++ [GcEffect.delRow mediaId])

/-- `deleteVariant`: `DELETE ... RETURNING storage_key`, then delete the
object; nothing if the row does not exist.  `(media_id, profile)` is a unique
key, so `find?` returns the row the RETURNING clause would. -/
def deleteVariant (st : GcState) (mediaId profile : String) : GcState × List GcEffect :=
  match st.db.mediaVariants.find? (fun v => v.mediaId == mediaId && v.profile == profile) with
  | none => (st, [])
  | some v =>
    let db1 := { st.db with mediaVariants :=
      st.db.mediaVariants.filter (fun x => !(x.mediaId == mediaId && x.profile == profile)) }
    let r := s3DeleteOne v.storageKey { st with db := db1 }
    (r.1, GcEffect.delVariantRow mediaId profile :: r.2)

/-- A GC stream job. -/
inductive GcJob where
  | deleteMediaJob (mediaId : String)
  | deleteVariantJob (mediaId : String) (profile : String)
  | cleanupUploads
deriving DecidableEq, Repr

/-- The GC `processJob` dispatcher.  `cleanup_uploads` touches only the
`upload_sessions` table, which is outside this embedding's state. -/
def gcProcessJob (st : GcState) (job : GcJob) : Except String (GcState × List GcEffect) :=
  match job with
  | GcJob.deleteMediaJob mid =>
    if mid == "" then Except.error "delete_media: mediaId required"
    else Except.ok (deleteMedia st mid)
  | GcJob.deleteVariantJob mid p =>
    if mid == "" then Except.error "delete_variant: mediaId required"
    else Except.ok (deleteVariant st mid p)
  | GcJob.cleanupUploads => Except.ok (st, [])

/-- The background sweeps (`scanOrphans`, `scanQuarantine`) call `deleteMedia`
once per selected row id; the SQL row selection (ref_count, grace period,
quarantine TTL) happens in Postgres and is given here as the id list. -/
def sweepDelete (ids : List String) (st : GcState) : GcState :=
  ids.foldl (fun s i => (deleteMedia s i).1) st

/-! ## The five consumer loops, instantiated -/

/-- The antivirus worker's per-entry handling (`readOnce` body). -/
def avHandleEntry (parse : String → Option Job) (ser : Job → String)
    (record : Option MediaRecord) (rowStorageKey : String) (s3Has : Bool)
    (scan : ScanResult) (id raw : String) : EntryOutcome :=
  handleEntry parse ser (avProcessJob record rowStorageKey s3Has scan) id raw

/-- The metadata worker's per-entry handling. -/
def metadataHandleEntry (parse : String → Option Job) (ser : Job → String)
    (record : Option MediaRecord) (s3Has : Bool) (bytes : Nat) (sha : String)
    (crc : Nat) (mimeDetected : String) (id raw : String) : EntryOutcome :=
  handleEntry parse ser (metadataProcessJob record s3Has bytes sha crc mimeDetected) id raw

/-- The image-variants worker's per-entry handling. -/
def imageHandleEntry (parse : String → Option Job) (ser : Job → String)
    (record : Option MediaRecord) (s3Has : Bool) (srcW srcH : Nat)
    (encodeMeta : String → Nat → Option Nat × Option Nat) (fallbackH : Nat → Nat)
    (id raw : String) : EntryOutcome :=
  handleEntry parse ser (imageProcessJob record s3Has srcW srcH encodeMeta fallbackH) id raw

/-- The transcode worker's per-entry handling. -/
def transcodeHandleEntry (parse : String → Option Job) (ser : Job → String)
    (record : Option MediaRecord) (hasVidVariants : Bool) (s3Has : Bool)
    (probeW probeH durationMs : Nat) (maxVarEnv : Option Int)
    (rWidth : Rendition → Nat) (id raw : String) : EntryOutcome :=
  handleEntry parse ser
    (transcodeProcessJob record hasVidVariants s3Has probeW probeH durationMs maxVarEnv rWidth)
    id raw

/-- The GC worker's per-entry handling. -/
def gcHandleEntry (parse : String → Option GcJob) (ser : GcJob → String)
    (st : GcState) (id raw : String) : EntryOutcome :=
  handleEntry parse ser (gcProcessJob st) id raw

/-! ## Observers and concrete inputs used by the theorems -/

/-- The `(profile, width)` pairs of the `media_variants` upserts in an effect
list. -/
def variantUpsertsOf (l : List Effect) : List (String × Nat) :=
  l.filterMap (fun e => match e with
    | Effect.variantUpsert _ p _ w _ _ => some (p, w)
    | _ => none)

/-- The six profile keys the image-variants worker writes, in loop order
(profiles outer, formats inner). -/
def imgExpectedProfiles : List String :=
  ["img_thumb_webp", "img_thumb_avif", "img_medium_webp", "img_medium_avif",
   "img_large_webp", "img_large_avif"]

/-- Concrete GC state: one media with one variant, plus an unrelated media. -/
def gcWitnessState : GcState :=
  { db := { mediaFiles := [⟨"m1", "original/m1"⟩, ⟨"m2", "original/m2"⟩],
            mediaVariants := [⟨"m1", "vid_360p_hls", "variants/m1/hls/360p/index.m3u8"⟩] },
    objects := ["original/m1", "original/m2", "variants/m1/hls/360p/index.m3u8"] }

/-- Concrete quarantined record (as the AV worker leaves an infected file). -/
def quarantinedRecord : MediaRecord :=
  { antivirusStatus := AvStatus.infected, quarantined := true,
    sha256 := none, mime := "image/png" }

/-- Concrete clean record. -/
def cleanRecord : MediaRecord :=
  { antivirusStatus := AvStatus.clean, quarantined := false,
    sha256 := some "abc", mime := "image/png" }

/-- Concrete job. -/
def sampleJob : Job :=
  { mediaId := "m1", storageKey := "original/m1", mime := some "image/png" }

/-! ## Idempotency middleware

From `apps/api/src/middleware/idempotency.ts`.  Redis is the explicit
`RedisState`; `hashPath` abstracts the sha1-prefix path hash; record TTLs are
not modelled (no clock).  A request's lifecycle is `preHandler` → handler →
`onSend`, folded into one function `processRequest`: Fastify skips the route
handler whenever `preHandler` has already sent a reply (replay, 400, 409),
and `onSend` stores only when the `preHandler` acquired the lock
(`engaged` set and `skipStore` unset). -/

/-- HTTP method. -/
inductive Method where
  | GET
  | POST
  | PUT
  | PATCH
  | DELETE
  | HEAD
  | OPTIONS
deriving DecidableEq, Repr

/-- `TARGET_METHODS = {POST, PUT, PATCH, DELETE}`. -/
def targetMethod (m : Method) : Bool :=
  match m with
  | Method.POST | Method.PUT | Method.PATCH | Method.DELETE => true
  | _ => false

/-- Method name, for the scope string. -/
def methodStr (m : Method) : String :=
  match m with
  | Method.GET => "GET"
  | Method.POST => "POST"
  | Method.PUT => "PUT"
  | Method.PATCH => "PATCH"
  | Method.DELETE => "DELETE"
  | Method.HEAD => "HEAD"
  | Method.OPTIONS => "OPTIONS"

/-- The character class `[A-Za-z0-9_\-:.]` of `validateKey`. -/
def isUrlSafeKeyChar (c : Char) : Bool :=
  c.isAlpha || c.isDigit || c == '_' || c == '-' || c == ':' || c == '.'

/-- `validateKey`: non-empty, 16..200 characters, all in the URL-safe class
(string length counts characters; the key class is ASCII so this matches the
JS UTF-16 length). -/
def validateKey (key : String) : Bool :=
  !(key == "") && decide (16 ≤ key.length) && decide (key.length ≤ 200)
    && key.data.all isUrlSafeKeyChar

/-- A reply payload as `onSend` sees it: null/undefined, a Buffer, a string,
or a JSON-serializable object (carried by its serialization). -/
inductive Payload where
  | nullp
  | buf (bytes : String)
  | str (s : String)
  | obj (json : String)
deriving DecidableEq, Repr

/-- `normalizePayload`: the byte buffer, the JSON object if any, and the
`isJson` flag. -/
structure NormPayload where
  buf : String
  json : Option String
  isJson : Bool
deriving DecidableEq, Repr

/-- `normalizePayload` on each payload shape. -/
def normalizePayload (p : Payload) : NormPayload :=
  match p with
  | Payload.nullp => { buf := "", json := none, isJson := false }
  | Payload.buf b => { buf := b, json := none, isJson := false }
  | Payload.str s => { buf := s, json := none, isJson := false }
  | Payload.obj j => { buf := j, json := some j, isJson := true }

/-- `ALLOWED_RES_HEADERS`. -/
def allowedResHeaders : List String :=
  ["content-type", "content-length", "etag", "last-modified", "location", "cache-control"]

/-- The header filtering of `onSend`: keep allowlisted headers, keyed by
their lowercased name. -/
def filterStoredHeaders (hs : List (String × String)) : List (String × String) :=
  (hs.filter (fun kv => allowedResHeaders.contains (lowerStr kv.1))).map
    (fun kv => (lowerStr kv.1, kv.2))

/-- A stored response record, as serialized to Redis. -/
structure StoredResponse where
  status : Nat
  headers : List (String × String)
  isJson : Bool
  /-- the stored body bytes (the base64 transport encoding round-trips and is
  omitted) -/
  bodyBase64 : Option String
  bodyJson : Option String
deriving DecidableEq, Repr

/-- What the client receives. -/
structure Response where
  status : Nat
  headers : List (String × String)
  body : Payload
deriving DecidableEq, Repr

/-- `replayStoredResponse`: stored headers, stored status (`|| 200`), stored
body (JSON object, `?? null`, or buffer from the stored bytes). -/
def replayStoredResponse (record : StoredResponse) : Response :=
  { status := if record.status == 0 then 200 else record.status,
    headers := record.headers,
    body := if record.isJson then Payload.obj (record.bodyJson.getD "null")
            else Payload.buf (record.bodyBase64.getD "") }

/-- `idemError`: error reply; a 409 carries `Retry-After: 5`. -/
def idemError (status : Nat) (code : String) : Response :=
  { status := status,
    headers := if status == 409 then [("retry-after", "5")] else [],
    body := Payload.obj code }

/-- The Redis keys the middleware uses: stored responses and in-flight
locks. -/
structure RedisState where
  stored : List (String × StoredResponse)
  locks : List String
deriving DecidableEq, Repr

/-- `GET` of a stored response (JSON round-trip omitted). -/
def rGet (rs : RedisState) (k : String) : Option StoredResponse :=
  (rs.stored.find? (fun kv => kv.1 == k)).map Prod.snd

/-- Does a lock key exist (`SET NX` failing means yes). -/
def rHasLock (rs : RedisState) (k : String) : Bool := rs.locks.contains k

/-- Acquire a lock key. -/
def rSetLock (rs : RedisState) (k : String) : RedisState :=
  { rs with locks := k :: rs.locks }

/-- `DEL` of a lock key. -/
def rDelLock (rs : RedisState) (k : String) : RedisState :=
  { rs with locks := rs.locks.filter (fun x => x != k) }

/-- `SET` of a stored response. -/
def rStore (rs : RedisState) (k : String) (record : StoredResponse) : RedisState :=
  { rs with stored := (k, record) :: rs.stored.filter (fun kv => kv.1 != k) }

/-- An incoming request as the middleware reads it: method, route path,
authenticated user id (absent or empty falls back to `anon`), and the
`Idempotency-Key` header. -/
structure Request where
  method : Method
  path : String
  userId : Option String
  idemHeader : Option String
deriving DecidableEq, Repr

/-- `getUserId`: `req.user?.id || 'anon'`. -/
def getUserId (req : Request) : String := jsOrStr req.userId "anon"

/-- `buildScope`: `method|hashPath(path)|uid`. -/
def buildScope (hashPath : String → String) (req : Request) : String :=
  methodStr req.method ++ "|" ++ hashPath req.path ++ "|" ++ getUserId req

/-- What the route handler replies with. -/
structure HandlerResult where
  status : Nat
  headers : List (String × String)
  payload : Payload
deriving DecidableEq, Repr

/-- Outcome of one request through the middleware: the client-visible
response, the resulting Redis state, and whether the route handler ran. -/
structure PipelineResult where
  response : Response
  redis : RedisState
  handlerRan : Bool
deriving DecidableEq, Repr

/-- A request outside the idempotency machinery: the handler runs, `onSend`
finds no `__idem` state and changes nothing. -/
def runNoIdem (rs : RedisState) (req : Request)
    (handler : Request → HandlerResult) : PipelineResult :=
  let hres := handler req
  { response := { status := hres.status, headers := hres.headers, body := hres.payload },
    redis := rs, handlerRan := true }

/-- The `onSend` hook on the lock-holding path: a status ≥ 500 or an
oversized body only releases the lock; otherwise the filtered headers and the
normalized body are stored and the lock is released. -/
def onSendStore (maxStoreBytes : Nat) (rs : RedisState) (resKey lockKey : String)
    (hres : HandlerResult) : RedisState :=
  let status := if hres.status == 0 then 200 else hres.status
  if 500 ≤ status then rDelLock rs lockKey
  else
    let headers := filterStoredHeaders hres.headers
    let norm := normalizePayload hres.payload
    if maxStoreBytes < norm.buf.length then rDelLock rs lockKey
    else
      let record : StoredResponse :=
        { status := status, headers := headers, isJson := norm.isJson,
          bodyBase64 := if norm.isJson then none else some norm.buf,
          bodyJson := if norm.isJson then some (norm.json.getD "null") else none }
      rDelLock (rStore rs resKey record) lockKey

/-- One request through `preHandler` → handler → `onSend`. -/
def processRequest (hashPath : String → String) (maxStoreBytes : Nat)
    (rs : RedisState) (req : Request) (handler : Request → HandlerResult) : PipelineResult :=
  if !(targetMethod req.method) then runNoIdem rs req handler
  else
    let key := req.idemHeader.getD ""
    if key == "" then runNoIdem rs req handler
    else if !(validateKey key) then
      { response := idemError 400 "IDEMPOTENCY_KEY_INVALID", redis := rs, handlerRan := false }
    else
      let scope := buildScope hashPath req
      let resKey := "idem:res:" ++ scope ++ ":" ++ key
      let lockKey := "idem:lock:" ++ scope ++ ":" ++ key
      match rGet rs resKey with
      | some record =>
        { response := replayStoredResponse record, redis := rs, handlerRan := false }
      | none =>
        if rHasLock rs lockKey then
          { response := idemError 409 "IDEMPOTENCY_IN_PROGRESS", redis := rs,
            handlerRan := false }
        else
          let hres := handler req
          { response := { status := hres.status, headers := hres.headers, body := hres.payload },
            redis := onSendStore maxStoreBytes (rSetLock rs lockKey) resKey lockKey hres,
            handlerRan := true }

/-- `requireIdempotency()`: the per-route `preHandler` guard; `some r` means
it replies `r` and the handler is skipped. -/
def requireIdempotency (req : Request) : Option Response :=
  if !(targetMethod req.method) then none
  else if !(validateKey (req.idemHeader.getD "")) then
    some (idemError 400 "IDEMPOTENCY_KEY_REQUIRED")
  else none

/-- Concrete stored response. -/
def storedSample : StoredResponse :=
  { status := 201, headers := [("content-type", "application/json")], isJson := true,
    bodyBase64 := none, bodyJson := some "created" }

/-- Concrete request with a valid 16-character key. -/
def idemSampleReq : Request :=
  { method := Method.POST, path := "/v1/x", userId := some "u1",
    idemHeader := some "0123456789abcdef" }

/-- Concrete Redis state holding a stored result for `idemSampleReq`
(scope computed with the identity path hash). -/
def idemSampleRedis : RedisState :=
  { stored := [("idem:res:POST|/v1/x|u1:0123456789abcdef", storedSample)], locks := [] }

/-- Concrete route handler (never reached in the replay witness). -/
def sampleHandler : Request → HandlerResult :=
  fun _ => { status := 200, headers := [], payload := Payload.obj "fresh" }

/-! ## Realtime gateway: topic bookkeeping

From the first unit of `apps/realtime/src/index.ts`:
`topicToSockets : Map<string, Set<SocketCtx>>`,
`topicRefCount : Map<string, number>`, a per-connection `ctx.subs : Set`, and
the broker-level subscriptions held by the dedicated `sub` Redis client.
Maps are total functions into `Option` (absent = `none`); JS `Set`s are
duplicate-free lists in insertion order. -/

/-- A connected socket, identified by a number (the `SocketCtx` object
identity). -/
abbrev SocketId := Nat

/-- A topic string. -/
abbrev Topic := String

/-- Pointwise map update. -/
def fupd {α β : Type} [DecidableEq α] (f : α → β) (x : α) (v : β) : α → β :=
  fun y => if y = x then v else f y

/-- Gateway process state. -/
structure GwState where
  /-- `ctx.subs` for each connected socket (`none` = no such connection) -/
  conns : SocketId → Option (List Topic)
  /-- `topicToSockets` -/
  t2s : Topic → Option (List SocketId)
  /-- `topicRefCount` -/
  rc : Topic → Option Nat
  /-- is the topic subscribed on the broker connection -/
  broker : Topic → Bool

/-- The gateway starts with no connections, no topics, no broker
subscriptions. -/
def initGw : GwState :=
  { conns := fun _ => none, t2s := fun _ => none, rc := fun _ => none,
    broker := fun _ => false }

/-- `redisSubscribe(topic)`: attach the broker subscription on the 0→1
transition of the refcount. -/
def redisSubscribe (t : Topic) (st : GwState) : GwState :=
  match st.rc t with
  | none =>
    { st with broker := fupd st.broker t true, rc := fupd st.rc t (some 1) }
  | some n => { st with rc := fupd st.rc t (some (n + 1)) }

/-- `redisUnsubscribe(topic)`: decrement `n = (get(topic) || 0) - 1` (over JS
numbers, hence the `Int`); at `n ≤ 0` drop the refcount entry and detach the
broker subscription, else store `n`. -/
def redisUnsubscribe (t : Topic) (st : GwState) : GwState :=
  if ((st.rc t).getD 0 : Int) - 1 ≤ 0 then
    { st with rc := fupd st.rc t none, broker := fupd st.broker t false }
  else { st with rc := fupd st.rc t (some (((st.rc t).getD 0 : Int) - 1).toNat) }

/-- One topic of the subscribe loop: skip if already subscribed, else
`redisSubscribe`, add to `ctx.subs`, add to `topicToSockets` (creating the
entry). -/
def subscribeOne (sid : SocketId) (t : Topic) (st : GwState) : GwState :=
  match st.conns sid with
  | none => st
  | some subs =>
    if t ∈ subs then st
    else
      let st1 := redisSubscribe t st
      let st2 := { st1 with conns := fupd st1.conns sid (some (subs ++ [t])) }
      let cur := (st2.t2s t).getD []
      { st2 with t2s := fupd st2.t2s t (some (cur ++ [sid])) }

/-- One topic of the unsubscribe loop: skip if not subscribed, else remove
from `ctx.subs`, remove from `topicToSockets` (dropping an emptied entry),
then `redisUnsubscribe`.  The close handler runs the same body over every
topic of `ctx.subs` (it omits the membership test and defers the `subs`
removal to the final `clear()`, which reaches the same state since the loop
body never reads `ctx.subs`). -/
def unsubscribeOne (sid : SocketId) (t : Topic) (st : GwState) : GwState :=
  match st.conns sid with
  | none => st
  | some subs =>
    if t ∈ subs then
      let st1 := { st with conns := fupd st.conns sid (some (subs.erase t)) }
      let st2 :=
        match st1.t2s t with
        | none => st1
        | some l =>
          let l2 := l.erase sid
          { st1 with t2s := fupd st1.t2s t (if l2.isEmpty then none else some l2) }
      redisUnsubscribe t st2
    else st

/-- `/^[0-9a-f-]{36}$/i` on the id part of a topic. -/
def uuidChars (l : List Char) : Bool :=
  l.length == 36 && l.all (fun c =>
    (decide ('0' ≤ c) && decide (c ≤ '9'))
    || (decide ('a' ≤ c) && decide (c ≤ 'f'))
    || (decide ('A' ≤ c) && decide (c ≤ 'F'))
    || c == '-')

/-- `isAllowedTopic`: the fixed set of allowed topic shapes. -/
def isAllowedTopic (s : String) : Bool :=
  s == "rt:feed"
  || (startsWithStr s "rt:user:" && uuidChars (s.data.drop 8))
  || (startsWithStr s "rt:conv:" && uuidChars (s.data.drop 8))
  || (startsWithStr s "rt:channel:" && uuidChars (s.data.drop 11))

/-- `[...new Set(list)]`: drop duplicates keeping first occurrences. -/
def dedupFirst : List Topic → List Topic
  | [] => []
  | a :: l => a :: dedupFirst (l.filter (fun x => x != a))
termination_by l => l.length
decreasing_by
  simp only [List.length_cons]
  exact Nat.lt_succ_of_le (List.length_filter_le _ _)

/-- An externally observable gateway event: a connection opening (with the
`preloadUserTopics` snapshot), a subscribe or unsubscribe client frame, a
connection closing. -/
inductive GwEvent where
  | connect (sid : SocketId) (initTopics : List Topic)
  | subscribeMsg (sid : SocketId) (topics : List Topic)
  | unsubscribeMsg (sid : SocketId) (topics : List Topic)
  | close (sid : SocketId)

/-- One event of the gateway loop.  `connect` registers the fresh connection
and auto-subscribes the first `maxSubs` preloaded topics; `subscribe` frames
are validated, deduplicated, capped by `maxSubs` and applied one topic at a
time; `unsubscribe` frames are validated and applied; `close` unsubscribes
every topic of the connection and drops it. -/
def stepEvent (maxSubs : Nat) (st : GwState) (e : GwEvent) : GwState :=
  match e with
  | GwEvent.connect sid init =>
    match st.conns sid with
    | some _ => st
    | none =>
      ((dedupFirst init).take maxSubs).foldl (fun s t => subscribeOne sid t s)
        { st with conns := fupd st.conns sid (some []) }
  | GwEvent.subscribeMsg sid topics =>
    if (dedupFirst (topics.filter isAllowedTopic)).isEmpty then st
    else
      match st.conns sid with
      | none => st
      | some subs =>
        if maxSubs < subs.length + (dedupFirst (topics.filter isAllowedTopic)).length then st
        else (dedupFirst (topics.filter isAllowedTopic)).foldl
          (fun s t => subscribeOne sid t s) st
  | GwEvent.unsubscribeMsg sid topics =>
    if (dedupFirst (topics.filter isAllowedTopic)).isEmpty then st
    else (dedupFirst (topics.filter isAllowedTopic)).foldl
      (fun s t => unsubscribeOne sid t s) st
  | GwEvent.close sid =>
    match st.conns sid with
    | none => st
    | some subs =>
      { subs.foldl (fun s t => unsubscribeOne sid t s) st with
        conns := fupd (subs.foldl (fun s t => unsubscribeOne sid t s) st).conns sid none }

/-- The gateway run over an event sequence. -/
def runGw (maxSubs : Nat) (events : List GwEvent) : GwState :=
  events.foldl (stepEvent maxSubs) initGw

/-- `sid` is in the `topicToSockets` entry of `t`. -/
def inT2s (st : GwState) (t : Topic) (sid : SocketId) : Prop :=
  ∃ l, st.t2s t = some l ∧ sid ∈ l

/-- Connection `sid` exists and has `t` in its `ctx.subs`. -/
def subscribed (st : GwState) (sid : SocketId) (t : Topic) : Prop :=
  ∃ s, st.conns sid = some s ∧ t ∈ s

/-- The coupling invariant of the gateway's four registries. -/
structure GwInv (st : GwState) : Prop where
  /-- broker subscription iff a refcount entry exists -/
  brokerRc : ∀ t, st.broker t = (st.rc t).isSome
  /-- the refcount of `t` is the local subscriber count of `t` -/
  rcLen : ∀ t, st.rc t = (st.t2s t).map List.length
  /-- `topicToSockets` never keeps an empty entry -/
  t2sNonempty : ∀ t l, st.t2s t = some l → l ≠ []
  /-- socket sets hold no duplicates -/
  t2sNodup : ∀ t l, st.t2s t = some l → l.Nodup
  /-- subscription sets hold no duplicates -/
  connNodup : ∀ sid s, st.conns sid = some s → s.Nodup
  /-- `topicToSockets` and the `ctx.subs` sets agree -/
  link : ∀ t sid, inT2s st t sid ↔ subscribed st sid t

end Messenger

namespace Messenger

/-! ## Helper lemmas -/

/-- Shared: any consumer loop on an unparseable payload acks and dead-letters
`bad_json` without invoking the handler. -/
theorem handleEntry_parse_none {J α : Type} (parse : String → Option J) (ser : J → String)
    (process : J → Except String α) (id raw : String) (h : parse raw = none) :
    handleEntry parse ser process id raw
      = ⟨[QAction.ack id, QAction.dlq "bad_json" none raw], false⟩ := by
  simp [handleEntry, h]

/-- Shared: a handler that resolves leads to a single ack. -/
theorem handleEntry_parse_ok {J α : Type} (parse : String → Option J) (ser : J → String)
    (process : J → Except String α) (id raw : String) (j : J) (v : α)
    (hp : parse raw = some j) (hv : process j = Except.ok v) :
    handleEntry parse ser process id raw = ⟨[QAction.ack id], true⟩ := by
  simp [handleEntry, hp, hv]

/-- Shared: a handler that throws leads to ack plus a `processing_failed`
dead-letter carrying the error text. -/
theorem handleEntry_parse_err {J α : Type} (parse : String → Option J) (ser : J → String)
    (process : J → Except String α) (id raw : String) (j : J) (e : String)
    (hp : parse raw = some j) (he : process j = Except.error e) :
    handleEntry parse ser process id raw
      = ⟨[QAction.ack id, QAction.dlq "processing_failed" (some e) (ser j)], true⟩ := by
  simp [handleEntry, hp, he]

/-- The relational part of `deleteMedia` is exactly the cascading row
delete. -/
theorem deleteMedia_db_eq (st : GcState) (mid : String) :
    (deleteMedia st mid).1.db = dbDeleteMediaCascade st.db mid := by
  unfold deleteMedia
  cases fetchOriginalKey st.db mid <;> simp [s3DeleteMany, s3DeleteOne]

/-- Surviving `media_files` rows after `deleteMedia` were already there and
have a different id. -/
theorem deleteMedia_files_mem (st : GcState) (mid : String) (r : GcMediaRow)
    (hr : r ∈ (deleteMedia st mid).1.db.mediaFiles) :
    r ∈ st.db.mediaFiles ∧ r.id ≠ mid := by
  rw [deleteMedia_db_eq] at hr
  have h := List.mem_filter.mp hr
  exact ⟨h.1, by simpa using h.2⟩

/-- Surviving `media_variants` rows after `deleteMedia` were already there and
belong to a different media. -/
theorem deleteMedia_variants_mem (st : GcState) (mid : String) (v : GcVariantRow)
    (hv : v ∈ (deleteMedia st mid).1.db.mediaVariants) :
    v ∈ st.db.mediaVariants ∧ v.mediaId ≠ mid := by
  rw [deleteMedia_db_eq] at hv
  have h := List.mem_filter.mp hv
  exact ⟨h.1, by simpa using h.2⟩

/-- Rows surviving a background sweep survived every per-id delete. -/
theorem sweepDelete_files_mem (ids : List String) (st : GcState) (r : GcMediaRow)
    (hr : r ∈ (sweepDelete ids st).db.mediaFiles) :
    r ∈ st.db.mediaFiles ∧ ∀ i ∈ ids, r.id ≠ i := by
  induction ids generalizing st with
  | nil => exact ⟨by simpa [sweepDelete] using hr, by simp⟩
  | cons i rest ih =>
    have hr1 : r ∈ (sweepDelete rest (deleteMedia st i).1).db.mediaFiles := by
      simpa [sweepDelete] using hr
    obtain ⟨hmem, hrest⟩ := ih (deleteMedia st i).1 hr1
    obtain ⟨hmem0, hne⟩ := deleteMedia_files_mem st i r hmem
    refine ⟨hmem0, ?_⟩
    intro j hj
    rcases List.mem_cons.mp hj with hj | hj
    · exact hj ▸ hne
    · exact hrest j hj

/-- Variant rows surviving a background sweep survived every per-id delete. -/
theorem sweepDelete_variants_mem (ids : List String) (st : GcState) (v : GcVariantRow)
    (hv : v ∈ (sweepDelete ids st).db.mediaVariants) :
    v ∈ st.db.mediaVariants ∧ ∀ i ∈ ids, v.mediaId ≠ i := by
  induction ids generalizing st with
  | nil => exact ⟨by simpa [sweepDelete] using hv, by simp⟩
  | cons i rest ih =>
    have hv1 : v ∈ (sweepDelete rest (deleteMedia st i).1).db.mediaVariants := by
      simpa [sweepDelete] using hv
    obtain ⟨hmem, hrest⟩ := ih (deleteMedia st i).1 hv1
    obtain ⟨hmem0, hne⟩ := deleteMedia_variants_mem st i v hmem
    refine ⟨hmem0, ?_⟩
    intro j hj
    rcases List.mem_cons.mp hj with hj | hj
    · exact hj ▸ hne
    · exact hrest j hj

/-- `jsOr` of an encoder output bounded by the target stays bounded. -/
theorem jsOr_le_of_bound (v : Option Nat) (t : Nat) (h : ∀ w, v = some w → w ≤ t) :
    jsOr v t ≤ t := by
  match v with
  | none => simp [jsOr]
  | some 0 => simp [jsOr]
  | some (n + 1) => simpa [jsOr] using h (n + 1) rfl

/-! ## Gateway invariant preservation -/

theorem fupd_same {α β : Type} [DecidableEq α] (f : α → β) (x : α) (v : β) :
    fupd f x v x = v := by
  simp [fupd]

theorem fupd_other {α β : Type} [DecidableEq α] (f : α → β) (x y : α) (v : β) (h : y ≠ x) :
    fupd f x v y = f y := by
  simp [fupd, h]

/-- The empty gateway satisfies the coupling invariant. -/
theorem initGw_inv : GwInv initGw := by
  constructor
  · intro t; rfl
  · intro t; rfl
  · intro t l h; exact Option.noConfusion h
  · intro t l h; exact Option.noConfusion h
  · intro sid s h; exact Option.noConfusion h
  · intro t sid; simp [inT2s, subscribed, initGw]

/-- Explicit form of `subscribeOne` when the connection exists and the topic
is new to it. -/
theorem subscribeOne_eq (sid : SocketId) (t0 : Topic) (st : GwState) (subs : List Topic)
    (hconn : st.conns sid = some subs) (hmem : t0 ∉ subs) :
    subscribeOne sid t0 st =
      { conns := fupd st.conns sid (some (subs ++ [t0])),
        t2s := fupd st.t2s t0 (some ((st.t2s t0).getD [] ++ [sid])),
        rc := fupd st.rc t0 (some ((st.rc t0).getD 0 + 1)),
        broker := match st.rc t0 with
                  | none => fupd st.broker t0 true
                  | some _ => st.broker } := by
  unfold subscribeOne redisSubscribe
  rw [hconn]
  cases hrc : st.rc t0 <;> simp [hmem, hrc]

/-- `subscribeOne` preserves the coupling invariant. -/
theorem subscribeOne_inv (sid : SocketId) (t0 : Topic) (st : GwState) (inv : GwInv st) :
    GwInv (subscribeOne sid t0 st) := by
  cases hconn : st.conns sid with
  | none => unfold subscribeOne; rw [hconn]; exact inv
  | some subs =>
    by_cases hmem : t0 ∈ subs
    · unfold subscribeOne; rw [hconn]; simpa [hmem] using inv
    · rw [subscribeOne_eq sid t0 st subs hconn hmem]
      have hsub0 : subscribed st sid t0 → False := by
        rintro ⟨s, hs, hts⟩
        rw [hconn] at hs
        exact hmem ((Option.some.inj hs) ▸ hts)
      have hcur : ∀ sid2, sid2 ∈ (st.t2s t0).getD [] ↔ inT2s st t0 sid2 := by
        intro sid2
        cases h2 : st.t2s t0 with
        | none => simp [inT2s, h2]
        | some l => simp [inT2s, h2]
      have hsid0 : sid ∉ (st.t2s t0).getD [] := fun hin =>
        hsub0 ((inv.link t0 sid).mp ((hcur sid).mp hin))
      refine ⟨?_, ?_, ?_, ?_, ?_, ?_⟩
      · intro t
        dsimp only
        by_cases ht : t = t0
        · rw [ht, fupd_same]
          cases hrc : st.rc t0 <;> simp [fupd_same]
          have hb := inv.brokerRc t0
          rw [hrc] at hb
          simpa using hb
        · rw [fupd_other _ _ _ _ ht]
          cases hrc : st.rc t0 <;> simp [fupd_other _ _ _ _ ht] <;> exact inv.brokerRc t
      · intro t
        dsimp only
        by_cases ht : t = t0
        · rw [ht, fupd_same, fupd_same]
          have hrcl := inv.rcLen t0
          cases h2 : st.t2s t0 with
          | none => rw [h2] at hrcl; simp at hrcl; simp [hrcl, h2]
          | some l => rw [h2] at hrcl; simp at hrcl; simp [hrcl, h2]
        · rw [fupd_other _ _ _ _ ht, fupd_other _ _ _ _ ht]
          exact inv.rcLen t
      · intro t l h
        dsimp only at h
        by_cases ht : t = t0
        · rw [ht, fupd_same] at h; cases h; simp
        · rw [fupd_other _ _ _ _ ht] at h; exact inv.t2sNonempty t l h
      · intro t l h
        dsimp only at h
        by_cases ht : t = t0
        · rw [ht, fupd_same] at h
          cases h
          rw [List.nodup_append]
          refine ⟨?_, List.nodup_singleton _, ?_⟩
          · cases h2 : st.t2s t0 with
            | none => simp [h2]
            | some l2 => simpa [h2] using inv.t2sNodup t0 l2 h2
          · intro a ha hb
            rw [List.mem_singleton] at hb
            subst hb
            exact hsid0 ha
        · rw [fupd_other _ _ _ _ ht] at h; exact inv.t2sNodup t l h
      · intro sid2 s h
        dsimp only at h
        by_cases hs : sid2 = sid
        · rw [hs, fupd_same] at h
          cases h
          rw [List.nodup_append]
          exact ⟨inv.connNodup sid subs hconn, List.nodup_singleton _,
            fun a ha hb => hmem ((List.mem_singleton.mp hb) ▸ ha)⟩
        · rw [fupd_other _ _ _ _ hs] at h; exact inv.connNodup sid2 s h
      · intro t sid2
        simp only [inT2s, subscribed]
        by_cases ht : t = t0 <;> by_cases hs : sid2 = sid
        · rw [ht, hs, fupd_same, fupd_same]
          simp
        · rw [ht, fupd_same, fupd_other _ _ _ _ hs]
          simp only [Option.some.injEq]
          constructor
          · rintro ⟨l, hl, hin⟩
            cases hl
            have hin2 : sid2 ∈ (st.t2s t0).getD [] := by
              rcases List.mem_append.mp hin with h2 | h2
              · exact h2
              · exact absurd (List.mem_singleton.mp h2) hs
            exact (inv.link t0 sid2).mp ((hcur sid2).mp hin2)
          · intro h2
            refine ⟨(st.t2s t0).getD [] ++ [sid], rfl, List.mem_append_left _ ?_⟩
            exact (hcur sid2).mpr ((inv.link t0 sid2).mpr h2)
        · rw [hs, fupd_other _ _ _ _ ht, fupd_same]
          simp only [Option.some.injEq]
          constructor
          · intro hL
            rcases (inv.link t sid).mp hL with ⟨s, hsc, hts⟩
            rw [hconn] at hsc
            exact ⟨subs ++ [t0], rfl, List.mem_append_left _ ((Option.some.inj hsc) ▸ hts)⟩
          · rintro ⟨s, hsc, hts⟩
            cases hsc
            have hts2 : t ∈ subs := by
              rcases List.mem_append.mp hts with h2 | h2
              · exact h2
              · exact absurd (List.mem_singleton.mp h2) ht
            exact (inv.link t sid).mpr ⟨subs, hconn, hts2⟩
        · rw [fupd_other _ _ _ _ ht, fupd_other _ _ _ _ hs]
          exact inv.link t sid2

theorem redisUnsubscribe_conns (t : Topic) (st : GwState) :
    (redisUnsubscribe t st).conns = st.conns := by
  unfold redisUnsubscribe
  by_cases h : ((st.rc t).getD 0 : Int) - 1 ≤ 0 <;> simp [h]

/-- Explicit form of `unsubscribeOne` when the connection is subscribed and a
`topicToSockets` entry exists. -/
theorem unsubscribeOne_eq (sid : SocketId) (t0 : Topic) (st : GwState) (subs : List Topic)
    (l : List SocketId) (hconn : st.conns sid = some subs) (hmem : t0 ∈ subs)
    (ht2s : st.t2s t0 = some l) :
    unsubscribeOne sid t0 st =
      redisUnsubscribe t0
        { st with conns := fupd st.conns sid (some (subs.erase t0)),
                  t2s := fupd st.t2s t0
                    (if (l.erase sid).isEmpty then none else some (l.erase sid)) } := by
  unfold unsubscribeOne
  rw [hconn]
  simp only [hmem, if_true]
  rw [ht2s]

/-- `unsubscribeOne` preserves the coupling invariant. -/
theorem unsubscribeOne_inv (sid : SocketId) (t0 : Topic) (st : GwState) (inv : GwInv st) :
    GwInv (unsubscribeOne sid t0 st) := by
  cases hconn : st.conns sid with
  | none => unfold unsubscribeOne; rw [hconn]; exact inv
  | some subs =>
    by_cases hmem : t0 ∈ subs
    case neg => unfold unsubscribeOne; rw [hconn]; simpa [hmem] using inv
    case pos =>
      obtain ⟨l, ht2s, hsidl⟩ := (inv.link t0 sid).mpr ⟨subs, hconn, hmem⟩
      rw [unsubscribeOne_eq sid t0 st subs l hconn hmem ht2s]
      have hrc : st.rc t0 = some l.length := by rw [inv.rcLen t0, ht2s]; rfl
      have hndl : l.Nodup := inv.t2sNodup t0 l ht2s
      have hnds : subs.Nodup := inv.connNodup sid subs hconn
      have hntm : t0 ∉ subs.erase t0 := hnds.not_mem_erase
      have hsnb : ∀ t, t ∈ subs.erase t0 ↔ t ≠ t0 ∧ t ∈ subs := fun t =>
        hnds.mem_erase_iff
      by_cases hone : l.length = 1
      · obtain ⟨a, hla⟩ := List.length_eq_one.mp hone
        subst hla
        have ha : sid = a := List.mem_singleton.mp hsidl
        subst ha
        simp only [List.erase_cons_head, List.isEmpty_nil, if_true]
        unfold redisUnsubscribe
        dsimp only
        rw [hrc]
        simp only [List.length_singleton, Option.getD_some]
        rw [if_pos (by norm_num)]
        refine ⟨?_, ?_, ?_, ?_, ?_, ?_⟩
        · intro t
          dsimp only
          by_cases ht : t = t0
          · rw [ht, fupd_same, fupd_same]; rfl
          · rw [fupd_other _ _ _ _ ht, fupd_other _ _ _ _ ht]; exact inv.brokerRc t
        · intro t
          dsimp only
          by_cases ht : t = t0
          · rw [ht, fupd_same, fupd_same]; rfl
          · rw [fupd_other _ _ _ _ ht, fupd_other _ _ _ _ ht]; exact inv.rcLen t
        · intro t l2 h
          dsimp only at h
          by_cases ht : t = t0
          · rw [ht, fupd_same] at h; exact Option.noConfusion h
          · rw [fupd_other _ _ _ _ ht] at h; exact inv.t2sNonempty t l2 h
        · intro t l2 h
          dsimp only at h
          by_cases ht : t = t0
          · rw [ht, fupd_same] at h; exact Option.noConfusion h
          · rw [fupd_other _ _ _ _ ht] at h; exact inv.t2sNodup t l2 h
        · intro sid2 s h
          dsimp only at h
          by_cases hs : sid2 = sid
          · rw [hs, fupd_same] at h
            cases h
            exact hnds.erase t0
          · rw [fupd_other _ _ _ _ hs] at h; exact inv.connNodup sid2 s h
        · intro t sid2
          simp only [inT2s, subscribed]
          by_cases ht : t = t0 <;> by_cases hs : sid2 = sid
          · rw [ht, hs, fupd_same, fupd_same]
            simp [hntm]
          · rw [ht, fupd_same, fupd_other _ _ _ _ hs]
            constructor
            · rintro ⟨l2, hl2, _⟩
              exact Option.noConfusion hl2
            · intro h2
              rcases (inv.link t0 sid2).mpr h2 with ⟨l2, hl2, hin2⟩
              rw [ht2s] at hl2
              cases hl2
              exact absurd (List.mem_singleton.mp hin2) hs
          · rw [hs, fupd_other _ _ _ _ ht, fupd_same]
            simp only [Option.some.injEq]
            constructor
            · intro hL
              rcases (inv.link t sid).mp hL with ⟨s, hsc, hts⟩
              rw [hconn] at hsc
              refine ⟨subs.erase t0, rfl, ?_⟩
              exact (hsnb t).mpr ⟨ht, (Option.some.inj hsc) ▸ hts⟩
            · rintro ⟨s, hsc, hts⟩
              cases hsc
              exact (inv.link t sid).mpr ⟨subs, hconn, ((hsnb t).mp hts).2⟩
          · rw [fupd_other _ _ _ _ ht, fupd_other _ _ _ _ hs]
            exact inv.link t sid2
      · have hge2 : 2 ≤ l.length := by
          have h0 : l.length ≠ 0 := fun h =>
            (List.ne_nil_of_mem hsidl) (List.length_eq_zero.mp h)
          omega
        have hl2len : (l.erase sid).length = l.length - 1 :=
          List.length_erase_of_mem hsidl
        have hl2ne : (l.erase sid).isEmpty = false := by
          cases he : l.erase sid with
          | nil => rw [he] at hl2len; simp at hl2len; omega
          | cons a as => rfl
        simp only [hl2ne, if_false]
        unfold redisUnsubscribe
        dsimp only
        rw [hrc]
        simp only [Option.getD_some]
        rw [if_neg (by omega : ¬((l.length : Int) - 1 ≤ 0))]
        have htoNat : ((l.length : Int) - 1).toNat = l.length - 1 := by omega
        refine ⟨?_, ?_, ?_, ?_, ?_, ?_⟩
        · intro t
          dsimp only
          by_cases ht : t = t0
          · rw [ht, fupd_same]
            have hb := inv.brokerRc t0
            rw [hrc] at hb
            simpa using hb
          · rw [fupd_other _ _ _ _ ht]; exact inv.brokerRc t
        · intro t
          dsimp only
          by_cases ht : t = t0
          · rw [ht, fupd_same, fupd_same]
            simp [htoNat, hl2len]
          · rw [fupd_other _ _ _ _ ht, fupd_other _ _ _ _ ht]; exact inv.rcLen t
        · intro t l2 h
          dsimp only at h
          by_cases ht : t = t0
          · rw [ht, fupd_same] at h
            cases h
            intro he
            rw [he] at hl2len
            simp at hl2len
            omega
          · rw [fupd_other _ _ _ _ ht] at h; exact inv.t2sNonempty t l2 h
        · intro t l2 h
          dsimp only at h
          by_cases ht : t = t0
          · rw [ht, fupd_same] at h
            cases h
            exact hndl.erase sid
          · rw [fupd_other _ _ _ _ ht] at h; exact inv.t2sNodup t l2 h
        · intro sid2 s h
          dsimp only at h
          by_cases hs : sid2 = sid
          · rw [hs, fupd_same] at h
            cases h
            exact hnds.erase t0
          · rw [fupd_other _ _ _ _ hs] at h; exact inv.connNodup sid2 s h
        · intro t sid2
          simp only [inT2s, subscribed]
          by_cases ht : t = t0 <;> by_cases hs : sid2 = sid
          · rw [ht, hs, fupd_same, fupd_same]
            simp only [Option.some.injEq]
            constructor
            · rintro ⟨l2, hl2, hin⟩
              cases hl2
              exact absurd hin (hndl.not_mem_erase)
            · rintro ⟨s, hsc, hts⟩
              cases hsc
              exact absurd hts hntm
          · rw [ht, fupd_same, fupd_other _ _ _ _ hs]
            constructor
            · rintro ⟨l2, hl2, hin⟩
              cases hl2
              have hin2 : sid2 ∈ l := (hndl.mem_erase_iff.mp hin).2
              exact (inv.link t0 sid2).mp ⟨l, ht2s, hin2⟩
            · intro h2
              rcases (inv.link t0 sid2).mpr h2 with ⟨l2, hl2, hin2⟩
              rw [ht2s] at hl2
              cases hl2
              exact ⟨l.erase sid, rfl, hndl.mem_erase_iff.mpr ⟨hs, hin2⟩⟩
          · rw [hs, fupd_other _ _ _ _ ht, fupd_same]
            simp only [Option.some.injEq]
            constructor
            · intro hL
              rcases (inv.link t sid).mp hL with ⟨s, hsc, hts⟩
              rw [hconn] at hsc
              exact ⟨subs.erase t0, rfl, (hsnb t).mpr ⟨ht, (Option.some.inj hsc) ▸ hts⟩⟩
            · rintro ⟨s, hsc, hts⟩
              cases hsc
              exact (inv.link t sid).mpr ⟨subs, hconn, ((hsnb t).mp hts).2⟩
          · rw [fupd_other _ _ _ _ ht, fupd_other _ _ _ _ hs]
            exact inv.link t sid2

/-- Folding the subscribe loop preserves the invariant. -/
theorem foldl_subscribeOne_inv (sid : SocketId) (ts : List Topic) (st : GwState)
    (inv : GwInv st) :
    GwInv (ts.foldl (fun s t => subscribeOne sid t s) st) := by
  induction ts generalizing st with
  | nil => exact inv
  | cons t rest ih => exact ih _ (subscribeOne_inv sid t st inv)

/-- Folding the unsubscribe loop preserves the invariant. -/
theorem foldl_unsubscribeOne_inv (sid : SocketId) (ts : List Topic) (st : GwState)
    (inv : GwInv st) :
    GwInv (ts.foldl (fun s t => unsubscribeOne sid t s) st) := by
  induction ts generalizing st with
  | nil => exact inv
  | cons t rest ih => exact ih _ (unsubscribeOne_inv sid t st inv)

/-- Registering a fresh connection with an empty subscription set preserves
the invariant. -/
theorem fresh_conn_inv (sid : SocketId) (st : GwState) (hconn : st.conns sid = none)
    (inv : GwInv st) :
    GwInv { st with conns := fupd st.conns sid (some []) } := by
  refine ⟨inv.brokerRc, inv.rcLen, inv.t2sNonempty, inv.t2sNodup, ?_, ?_⟩
  · intro sid2 s h
    dsimp only at h
    by_cases hs : sid2 = sid
    · rw [hs, fupd_same] at h; cases h; exact List.nodup_nil
    · rw [fupd_other _ _ _ _ hs] at h; exact inv.connNodup sid2 s h
  · intro t sid2
    simp only [inT2s, subscribed]
    by_cases hs : sid2 = sid
    · rw [hs, fupd_same]
      constructor
      · intro hL
        rcases (inv.link t sid).mp hL with ⟨s, hsc, _⟩
        rw [hconn] at hsc
        exact Option.noConfusion hsc
      · rintro ⟨s, hsc, hts⟩
        cases hsc
        simp at hts
    · rw [fupd_other _ _ _ _ hs]
      exact inv.link t sid2

/-- Dropping a connection whose subscription set is already empty preserves
the invariant. -/
theorem drop_conn_inv (sid : SocketId) (st : GwState) (hconn : st.conns sid = some [])
    (inv : GwInv st) :
    GwInv { st with conns := fupd st.conns sid none } := by
  refine ⟨inv.brokerRc, inv.rcLen, inv.t2sNonempty, inv.t2sNodup, ?_, ?_⟩
  · intro sid2 s h
    dsimp only at h
    by_cases hs : sid2 = sid
    · rw [hs, fupd_same] at h; exact Option.noConfusion h
    · rw [fupd_other _ _ _ _ hs] at h; exact inv.connNodup sid2 s h
  · intro t sid2
    simp only [inT2s, subscribed]
    by_cases hs : sid2 = sid
    · rw [hs, fupd_same]
      constructor
      · intro hL
        rcases (inv.link t sid).mp hL with ⟨s, hsc, hts⟩
        rw [hconn] at hsc
        cases hsc
        simp at hts
      · rintro ⟨s, hsc, _⟩
        exact Option.noConfusion hsc
    · rw [fupd_other _ _ _ _ hs]
      exact inv.link t sid2

/-- One unsubscribe step removes exactly the processed topic from the
connection's subscription set. -/
theorem unsubscribeOne_conns_self (sid : SocketId) (t : Topic) (st : GwState)
    (subs : List Topic) (hconn : st.conns sid = some subs) (hmem : t ∈ subs) :
    (unsubscribeOne sid t st).conns sid = some (subs.erase t) := by
  unfold unsubscribeOne
  rw [hconn]
  simp only [hmem, if_true]
  cases h2 : st.t2s t with
  | none =>
    rw [redisUnsubscribe_conns]
    exact fupd_same _ _ _
  | some l =>
    rw [redisUnsubscribe_conns]
    exact fupd_same _ _ _

/-- The close loop empties the connection's subscription set. -/
theorem foldl_unsub_close (sid : SocketId) : ∀ (s : List Topic) (st : GwState),
    st.conns sid = some s → s.Nodup →
    (s.foldl (fun a t => unsubscribeOne sid t a) st).conns sid = some [] := by
  intro s
  induction s with
  | nil => intro st h _; simpa using h
  | cons t rest ih =>
    intro st h hnd
    have h1 : (unsubscribeOne sid t st).conns sid = some rest := by
      have h2 := unsubscribeOne_conns_self sid t st (t :: rest) h (List.mem_cons_self t rest)
      rwa [List.erase_cons_head] at h2
    simp only [List.foldl_cons]
    exact ih (unsubscribeOne sid t st) h1 (List.Nodup.of_cons hnd)

/-- Every gateway event preserves the coupling invariant. -/
theorem stepEvent_inv (maxSubs : Nat) (st : GwState) (e : GwEvent) (inv : GwInv st) :
    GwInv (stepEvent maxSubs st e) := by
  cases e with
  | connect sid init =>
    simp only [stepEvent]
    cases hconn : st.conns sid with
    | some s => exact inv
    | none => exact foldl_subscribeOne_inv sid _ _ (fresh_conn_inv sid st hconn inv)
  | subscribeMsg sid topics =>
    simp only [stepEvent]
    by_cases hw : (dedupFirst (topics.filter isAllowedTopic)).isEmpty = true
    · simpa [hw] using inv
    · rw [if_neg hw]
      cases hconn : st.conns sid with
      | none => exact inv
      | some subs =>
        dsimp only
        by_cases hcap :
            maxSubs < subs.length + (dedupFirst (topics.filter isAllowedTopic)).length
        · rw [if_pos hcap]; exact inv
        · rw [if_neg hcap]; exact foldl_subscribeOne_inv sid _ _ inv
  | unsubscribeMsg sid topics =>
    simp only [stepEvent]
    by_cases hw : (dedupFirst (topics.filter isAllowedTopic)).isEmpty = true
    · simpa [hw] using inv
    · rw [if_neg hw]
      exact foldl_unsubscribeOne_inv sid _ _ inv
  | close sid =>
    simp only [stepEvent]
    cases hconn : st.conns sid with
    | none => exact inv
    | some subs =>
      exact drop_conn_inv sid _
        (foldl_unsub_close sid subs st hconn (inv.connNodup sid subs hconn))
        (foldl_unsubscribeOne_inv sid subs st inv)

/-- The invariant holds in every reachable gateway state. -/
theorem runGw_inv (maxSubs : Nat) (events : List GwEvent) : GwInv (runGw maxSubs events) := by
  unfold runGw
  have h : ∀ (evs : List GwEvent) (st : GwState), GwInv st →
      GwInv (evs.foldl (stepEvent maxSubs) st) := by
    intro evs
    induction evs with
    | nil => intro st inv; exact inv
    | cons e rest ih => intro st inv; exact ih _ (stepEvent_inv maxSubs st e inv)
  exact h events initGw initGw_inv

/-- **C5.** For every source height, `selectRenditions` returns exactly the
ladder profiles with `height ≤ srcH + 8`, truncated to the configured maximum
rendition count; with the default maximum (4) no truncation occurs, and for a
source height of 480 the selected profiles are exactly 360p and 480p. -/
theorem selectRenditions_spec :
    (∀ (srcH : Nat) (env : Option Int),
      selectRenditions srcH env
        = (renditionLadder.filter (fun r => r.height ≤ srcH + 8)).take (maxVariantsOf env))
    ∧ (∀ srcH : Nat,
      selectRenditions srcH (some 4)
        = renditionLadder.filter (fun r => r.height ≤ srcH + 8))
    ∧ selectedProfiles 480 (some 4) = ["360p", "480p"] := by
  refine ⟨fun srcH env => rfl, fun srcH => ?_, by decide⟩
  show List.take 4 _ = _
  exact List.take_of_length_le (le_trans (List.length_filter_le _ _) (by decide))

/-- **C4.** After any sequence of connects, subscribe requests, unsubscribe
requests and connection closes, for every topic T: the broker-level
subscription for T exists iff some local connection is subscribed to T —
equivalently, iff `topicRefCount` holds T with a positive count, iff
`topicToSockets` holds a non-empty socket set for T.  Since this holds after
every event, the broker subscription is detached during the processing of
the last local unsubscribe or close. -/
theorem realtime_broker_iff_local :
    ∀ (maxSubs : Nat) (events : List GwEvent) (t : Topic),
      ((runGw maxSubs events).broker t = true
        ↔ ∃ sid s, (runGw maxSubs events).conns sid = some s ∧ t ∈ s)
      ∧ ((runGw maxSubs events).broker t = true
        ↔ ∃ n, (runGw maxSubs events).rc t = some n ∧ 0 < n)
      ∧ ((runGw maxSubs events).broker t = true
        ↔ ∃ l, (runGw maxSubs events).t2s t = some l ∧ l ≠ []) := by
  intro maxSubs events t
  have inv := runGw_inv maxSubs events
  set st := runGw maxSubs events with hst
  have h3 : st.broker t = true ↔ ∃ l, st.t2s t = some l ∧ l ≠ [] := by
    rw [inv.brokerRc t]
    cases h2 : st.t2s t with
    | none =>
      have h0 : st.rc t = none := by rw [inv.rcLen t, h2]; rfl
      simp [h0]
    | some l =>
      have hrc : st.rc t = some l.length := by rw [inv.rcLen t, h2]; rfl
      simp only [hrc, Option.isSome_some, Option.some.injEq, true_iff]
      exact ⟨l, rfl, inv.t2sNonempty t l h2⟩
  have h2 : st.broker t = true ↔ ∃ n, st.rc t = some n ∧ 0 < n := by
    rw [inv.brokerRc t]
    cases h4 : st.t2s t with
    | none =>
      have h0 : st.rc t = none := by rw [inv.rcLen t, h4]; rfl
      simp [h0]
    | some l =>
      have hrc : st.rc t = some l.length := by rw [inv.rcLen t, h4]; rfl
      have hne := inv.t2sNonempty t l h4
      simp only [hrc, Option.isSome_some, Option.some.injEq, true_iff]
      exact ⟨l.length, rfl, List.length_pos.mpr hne⟩
  have h1 : st.broker t = true ↔ ∃ sid s, st.conns sid = some s ∧ t ∈ s := by
    rw [h3]
    constructor
    · rintro ⟨l, hl, hne⟩
      obtain ⟨sid, hsid⟩ := List.exists_mem_of_ne_nil l hne
      rcases (inv.link t sid).mp ⟨l, hl, hsid⟩ with ⟨s, hs, hts⟩
      exact ⟨sid, s, hs, hts⟩
    · rintro ⟨sid, s, hs, hts⟩
      rcases (inv.link t sid).mpr ⟨s, hs, hts⟩ with ⟨l, hl, hin⟩
      exact ⟨l, hl, List.ne_nil_of_mem hin⟩
  exact ⟨h1, h2, h3⟩

/-- **C7.** A full media delete by the GC — from an explicit `delete_media`
job (which dispatches to `deleteMedia`) or from a background sweep (which
calls `deleteMedia` per selected row) — issues its deletions in the order:
variant objects in batches, then the original object, then the `media_files`
row; afterwards no `media_files` row and no `media_variants` row for that
media id remains, including after a whole sweep. -/
theorem gc_delete_spec :
    (∀ (st : GcState) (mid : String),
      (deleteMedia st mid).2
        = (chunksOf 1000 (fetchVariants st.db mid)).map GcEffect.delBatch
          ++ (match fetchOriginalKey st.db mid with
              | some k => [GcEffect.delObj k]
              | none => [])
          ++ [GcEffect.delRow mid])
    ∧ (∀ (st : GcState) (mid : String) (r : GcMediaRow),
        r ∈ (deleteMedia st mid).1.db.mediaFiles → r.id ≠ mid)
    ∧ (∀ (st : GcState) (mid : String) (v : GcVariantRow),
        v ∈ (deleteMedia st mid).1.db.mediaVariants → v.mediaId ≠ mid)
    ∧ (∀ (st : GcState) (mid : String), (mid == "") = false →
        gcProcessJob st (GcJob.deleteMediaJob mid) = Except.ok (deleteMedia st mid))
    ∧ (∀ (ids : List String) (st : GcState) (mid : String), mid ∈ ids →
        (∀ r ∈ (sweepDelete ids st).db.mediaFiles, r.id ≠ mid)
        ∧ (∀ v ∈ (sweepDelete ids st).db.mediaVariants, v.mediaId ≠ mid)) := by
  refine ⟨fun st mid => ?_, fun st mid r hr => (deleteMedia_files_mem st mid r hr).2,
    fun st mid v hv => (deleteMedia_variants_mem st mid v hv).2,
    fun st mid h => by simp [gcProcessJob, h],
    fun ids st mid hmid => ⟨fun r hr => (sweepDelete_files_mem ids st r hr).2 mid hmid,
      fun v hv => (sweepDelete_variants_mem ids st v hv).2 mid hmid⟩⟩
  unfold deleteMedia
  cases fetchOriginalKey st.db mid <;> simp [s3DeleteMany, s3DeleteOne]

/-- Witness for C7 at a concrete state. -/
theorem gc_delete_spec_witness :
    gcProcessJob gcWitnessState (GcJob.deleteMediaJob "m1")
      = Except.ok (deleteMedia gcWitnessState "m1")
    ∧ (∀ r ∈ (sweepDelete ["m1"] gcWitnessState).db.mediaFiles, r.id ≠ "m1")
    ∧ (∀ v ∈ (sweepDelete ["m1"] gcWitnessState).db.mediaVariants, v.mediaId ≠ "m1") :=
  ⟨gc_delete_spec.2.2.2.1 gcWitnessState "m1" (by decide),
   (gc_delete_spec.2.2.2.2 ["m1"] gcWitnessState "m1" (by decide)).1,
   (gc_delete_spec.2.2.2.2 ["m1"] gcWitnessState "m1" (by decide)).2⟩

/-- **C8.** In each of the five consumer loops (antivirus, metadata,
image-variants, transcode, GC), a queue entry whose payload fails JSON
parsing is acknowledged exactly once and dead-lettered exactly once with
reason `bad_json` carrying the raw payload, and the job handler is never
invoked. -/
theorem badJson_spec :
    ∀ (id raw : String),
      (∀ (parse : String → Option Job) (ser : Job → String) record rowStorageKey s3Has scan,
        parse raw = none →
        avHandleEntry parse ser record rowStorageKey s3Has scan id raw
          = ⟨[QAction.ack id, QAction.dlq "bad_json" none raw], false⟩)
      ∧ (∀ (parse : String → Option Job) (ser : Job → String) record s3Has bytes sha crc mimeD,
        parse raw = none →
        metadataHandleEntry parse ser record s3Has bytes sha crc mimeD id raw
          = ⟨[QAction.ack id, QAction.dlq "bad_json" none raw], false⟩)
      ∧ (∀ (parse : String → Option Job) (ser : Job → String) record s3Has srcW srcH enc fb,
        parse raw = none →
        imageHandleEntry parse ser record s3Has srcW srcH enc fb id raw
          = ⟨[QAction.ack id, QAction.dlq "bad_json" none raw], false⟩)
      ∧ (∀ (parse : String → Option Job) (ser : Job → String) record hasV s3Has pW pH dMs env rW,
        parse raw = none →
        transcodeHandleEntry parse ser record hasV s3Has pW pH dMs env rW id raw
          = ⟨[QAction.ack id, QAction.dlq "bad_json" none raw], false⟩)
      ∧ (∀ (parse : String → Option GcJob) (ser : GcJob → String) st,
        parse raw = none →
        gcHandleEntry parse ser st id raw
          = ⟨[QAction.ack id, QAction.dlq "bad_json" none raw], false⟩) := by
  intro id raw
  exact ⟨fun parse ser record rk s3 scan h =>
      handleEntry_parse_none parse ser (avProcessJob record rk s3 scan) id raw h,
    fun parse ser record s3 bytes sha crc mimeD h =>
      handleEntry_parse_none parse ser (metadataProcessJob record s3 bytes sha crc mimeD) id raw h,
    fun parse ser record s3 srcW srcH enc fb h =>
      handleEntry_parse_none parse ser (imageProcessJob record s3 srcW srcH enc fb) id raw h,
    fun parse ser record hasV s3 pW pH dMs env rW h =>
      handleEntry_parse_none parse ser
        (transcodeProcessJob record hasV s3 pW pH dMs env rW) id raw h,
    fun parse ser st h => handleEntry_parse_none parse ser (gcProcessJob st) id raw h⟩

/-- Witness for C8: a concrete unparseable payload in the antivirus and the
GC loops. -/
theorem badJson_spec_witness :
    avHandleEntry (fun _ => none) (fun _ => "") none "" false ScanResult.clean "7-0" "oops"
      = ⟨[QAction.ack "7-0", QAction.dlq "bad_json" none "oops"], false⟩
    ∧ gcHandleEntry (fun _ => none) (fun _ => "") gcWitnessState "7-1" "oops"
      = ⟨[QAction.ack "7-1", QAction.dlq "bad_json" none "oops"], false⟩ :=
  ⟨(badJson_spec "7-0" "oops").1 (fun _ => none) (fun _ => "") none "" false ScanResult.clean rfl,
   (badJson_spec "7-1" "oops").2.2.2.2 (fun _ => none) (fun _ => "") gcWitnessState rfl⟩

/-- **C2 counterexample.** The claim "the worker silently skips the job …
no dead-letter entry is appended … claimed for both the image-variant worker
and the video-transcode worker" is false for the image-variant worker: at a
concrete quarantined record, its `processJob` throws and the consumer loop
appends a `processing_failed` dead-letter entry. -/
theorem image_gate_deadletter_cex :
    imageProcessJob (some quarantinedRecord) true 1000 800 (fun _ t => (some t, some t))
        (fun n => n) sampleJob
      = Except.error "media_not_clean_or_quarantined: infected"
    ∧ (imageHandleEntry (fun _ => some sampleJob) (fun _ => "payload") (some quarantinedRecord)
        true 1000 800 (fun _ t => (some t, some t)) (fun n => n) "2-0" "raw").actions
      = [QAction.ack "2-0",
         QAction.dlq "processing_failed"
           (some "media_not_clean_or_quarantined: infected") "payload"] :=
  ⟨rfl, rfl⟩

/-- **C2 (amended).** For a quarantined or not-clean record: the
video-transcode worker silently skips — `processJob` returns normally with no
effects, the entry is acked, no dead-letter entry and no variant; the
image-variant worker instead throws `media_not_clean_or_quarantined`, so its
entry is acked and dead-lettered with reason `processing_failed` (and still
no MediaVariant is created, since the run produces no effects). -/
theorem av_gate_skip_spec :
    (∀ (r : MediaRecord) (hasV s3 : Bool) (pW pH dMs : Nat) (env : Option Int)
        (rW : Rendition → Nat) (job : Job),
      (job.mediaId == "") = false → (job.storageKey == "") = false →
      (r.quarantined || r.antivirusStatus != AvStatus.clean) = true →
      transcodeProcessJob (some r) hasV s3 pW pH dMs env rW job = Except.ok []
      ∧ ∀ (parse : String → Option Job) (ser : Job → String) (id raw : String),
          parse raw = some job →
          transcodeHandleEntry parse ser (some r) hasV s3 pW pH dMs env rW id raw
            = ⟨[QAction.ack id], true⟩)
    ∧ (∀ (r : MediaRecord) (s3 : Bool) (srcW srcH : Nat)
        (enc : String → Nat → Option Nat × Option Nat) (fb : Nat → Nat) (job : Job),
      (job.mediaId == "") = false → (job.storageKey == "") = false →
      (r.quarantined || r.antivirusStatus != AvStatus.clean) = true →
      imageProcessJob (some r) s3 srcW srcH enc fb job
        = Except.error ("media_not_clean_or_quarantined: " ++ avStatusStr r.antivirusStatus)
      ∧ ∀ (parse : String → Option Job) (ser : Job → String) (id raw : String),
          parse raw = some job →
          imageHandleEntry parse ser (some r) s3 srcW srcH enc fb id raw
            = ⟨[QAction.ack id,
                QAction.dlq "processing_failed"
                  (some ("media_not_clean_or_quarantined: " ++ avStatusStr r.antivirusStatus))
                  (ser job)], true⟩) := by
  constructor
  · intro r hasV s3 pW pH dMs env rW job hm hs hgate
    have hp : transcodeProcessJob (some r) hasV s3 pW pH dMs env rW job = Except.ok [] := by
      simp [transcodeProcessJob, hm, hs, hgate]
    exact ⟨hp, fun parse ser id raw hraw =>
      handleEntry_parse_ok parse ser _ id raw job [] hraw hp⟩
  · intro r s3 srcW srcH enc fb job hm hs hgate
    have hp : imageProcessJob (some r) s3 srcW srcH enc fb job
        = Except.error ("media_not_clean_or_quarantined: " ++ avStatusStr r.antivirusStatus) := by
      simp [imageProcessJob, hm, hs, hgate]
    exact ⟨hp, fun parse ser id raw hraw =>
      handleEntry_parse_err parse ser _ id raw job _ hraw hp⟩

/-- Witness for the amended C2 at a concrete quarantined record. -/
theorem av_gate_skip_witness :
    transcodeProcessJob (some quarantinedRecord) false true 1920 1080 5000 (some 4)
        (fun _ => 0) sampleJob = Except.ok []
    ∧ imageProcessJob (some quarantinedRecord) true 1000 800 (fun _ t => (some t, some t))
        (fun n => n) sampleJob
      = Except.error ("media_not_clean_or_quarantined: "
          ++ avStatusStr quarantinedRecord.antivirusStatus) :=
  ⟨(av_gate_skip_spec.1 quarantinedRecord false true 1920 1080 5000 (some 4) (fun _ => 0)
      sampleJob (by decide) (by decide) (by decide)).1,
   (av_gate_skip_spec.2 quarantinedRecord true 1000 800 (fun _ t => (some t, some t))
      (fun n => n) sampleJob (by decide) (by decide) (by decide)).1⟩

/-- **C3.** Metadata worker integrity check: a non-empty stored sha256 that
differs case-insensitively from the computed hash forces
`quarantined=true, antivirus_status='error'`, appends a `sha_mismatch`
dead-letter incident, and stops — the run performs exactly those two effects,
so no `media_metadata` upsert and no MIME update occur; an empty stored
sha256 gets the computed hash written and processing continues to the
metadata upsert and the conditional MIME refresh. -/
theorem metadata_sha_integrity_spec :
    (∀ (r : MediaRecord) (bytes crc : Nat) (sha mimeD stored : String) (job : Job),
      (job.mediaId == "") = false → (job.storageKey == "") = false →
      r.sha256 = some stored → (stored == "") = false →
      (lowerStr stored != lowerStr sha) = true →
      metadataProcessJob (some r) true bytes sha crc mimeD job
        = Except.ok [Effect.dbUpdateAv job.mediaId AvStatus.error true,
                     Effect.dlqIncident "sha_mismatch" job.mediaId job.storageKey sha])
    ∧ (∀ (r : MediaRecord) (bytes crc : Nat) (sha mimeD : String) (job : Job),
      (job.mediaId == "") = false → (job.storageKey == "") = false →
      (r.sha256 = none ∨ r.sha256 = some "") →
      metadataProcessJob (some r) true bytes sha crc mimeD job
        = Except.ok ([Effect.dbSetSha job.mediaId sha,
                      Effect.metaUpsert job.mediaId mimeD bytes sha crc]
            ++ maybeUpdateMime (some r) job.mediaId mimeD)) := by
  constructor
  · intro r bytes crc sha mimeD stored job hm hs hsha hne hmis
    simp [metadataProcessJob, writeShaIfEmptyOrQuarantineOnMismatch, hm, hs, hsha, hne, hmis]
  · intro r bytes crc sha mimeD job hm hs hempty
    rcases hempty with hempty | hempty <;>
      simp [metadataProcessJob, writeShaIfEmptyOrQuarantineOnMismatch, hm, hs, hempty]

/-- Witness for C3: a record with stored hash `"AAA"` against computed
`"bbb"` quarantines, and a record with no stored hash continues. -/
theorem metadata_sha_integrity_witness :
    metadataProcessJob (some { cleanRecord with sha256 := some "AAA" }) true 10 "bbb" 7
        "image/png" sampleJob
      = Except.ok [Effect.dbUpdateAv "m1" AvStatus.error true,
                   Effect.dlqIncident "sha_mismatch" "m1" "original/m1" "bbb"]
    ∧ metadataProcessJob (some { cleanRecord with sha256 := none }) true 10 "bbb" 7
        "image/png" sampleJob
      = Except.ok ([Effect.dbSetSha "m1" "bbb",
                    Effect.metaUpsert "m1" "image/png" 10 "bbb" 7]
          ++ maybeUpdateMime (some { cleanRecord with sha256 := none }) "m1" "image/png") :=
  ⟨metadata_sha_integrity_spec.1 { cleanRecord with sha256 := some "AAA" } 10 7 "bbb"
      "image/png" "AAA" sampleJob (by decide) (by decide) rfl (by decide) (by decide),
   metadata_sha_integrity_spec.2 { cleanRecord with sha256 := none } 10 7 "bbb"
      "image/png" sampleJob (by decide) (by decide) (Or.inl rfl)⟩

/-- **C6.** A successfully processed image-variant job upserts exactly six
`media_variants` rows — the (profile, format) pairs over widths
{256, 720, 1280} and formats {webp, avif}, in loop order — and every
recorded width is at most the source width: the target width is
`min(srcW, profile.width)` and the encoder (sharp, with
`withoutEnlargement`) never reports a width above its target. -/
theorem image_six_variants_spec :
    ∀ (r : MediaRecord) (srcW srcH : Nat)
      (enc : String → Nat → Option Nat × Option Nat) (fb : Nat → Nat) (job : Job),
      (job.mediaId == "") = false → (job.storageKey == "") = false →
      (r.quarantined || r.antivirusStatus != AvStatus.clean) = false →
      isImageMime job.mime = true →
      (srcW == 0) = false → (srcH == 0) = false →
      (∀ f t w, (enc f t).1 = some w → w ≤ t) →
      imageProcessJob (some r) true srcW srcH enc fb job
        = Except.ok (imageVariantEffects job.mediaId srcW enc fb)
      ∧ (variantUpsertsOf (imageVariantEffects job.mediaId srcW enc fb)).map Prod.fst
          = imgExpectedProfiles
      ∧ ∀ pw ∈ variantUpsertsOf (imageVariantEffects job.mediaId srcW enc fb),
          pw.2 ≤ srcW := by
  intro r srcW srcH enc fb job hm hs hgate hmime hw hh henc
  refine ⟨by simp [imageProcessJob, hm, hs, hgate, hmime, hw, hh], ?_, ?_⟩
  · simp [imageVariantEffects, imgProfiles, imgFormats, variantUpsertsOf, imgExpectedProfiles]
  · have hbound : ∀ (f : String) (p : Nat),
        jsOr (enc f (min srcW p)).1 (min srcW p) ≤ srcW := fun f p =>
      le_trans (jsOr_le_of_bound _ _ (fun w hw2 => henc f (min srcW p) w hw2))
        (min_le_left _ _)
    intro pw hpw
    simp [imageVariantEffects, imgProfiles, imgFormats, variantUpsertsOf] at hpw
    rcases hpw with ⟨h1, h2⟩ | ⟨h1, h2⟩ | ⟨h1, h2⟩ | ⟨h1, h2⟩ | ⟨h1, h2⟩ | ⟨h1, h2⟩ <;>
      exact hbound _ _

/-- Witness for C6: a clean 1000×800 source with an exact encoder. -/
theorem image_six_variants_witness :
    imageProcessJob (some cleanRecord) true 1000 800 (fun _ t => (some t, some t))
        (fun n => n) sampleJob
      = Except.ok (imageVariantEffects "m1" 1000 (fun _ t => (some t, some t)) (fun n => n))
    ∧ (variantUpsertsOf (imageVariantEffects "m1" 1000 (fun _ t => (some t, some t))
        (fun n => n))).map Prod.fst = imgExpectedProfiles
    ∧ ∀ pw ∈ variantUpsertsOf (imageVariantEffects "m1" 1000
        (fun _ t => (some t, some t)) (fun n => n)), pw.2 ≤ 1000 :=
  image_six_variants_spec cleanRecord 1000 800 (fun _ t => (some t, some t)) (fun n => n)
    sampleJob (by decide) (by decide) (by decide) (by decide) (by decide) (by decide)
    (fun f t w hw => by simp at hw; omega)

/-- **C1.** If the scope key of a mutating request with a valid
`Idempotency-Key` already has a stored result, the middleware replies with
exactly the stored status (`|| 200`), the stored allowlisted headers and the
stored body, the route handler is not invoked, and — `skipStore` being set —
the Redis state is completely unchanged: nothing is re-stored and no lock is
taken, so the repeat request performs no side effect. -/
theorem idem_replay_spec :
    ∀ (hashPath : String → String) (maxStoreBytes : Nat) (rs : RedisState)
      (req : Request) (handler : Request → HandlerResult) (key : String)
      (record : StoredResponse),
      targetMethod req.method = true →
      req.idemHeader = some key → (key == "") = false → validateKey key = true →
      rGet rs ("idem:res:" ++ buildScope hashPath req ++ ":" ++ key) = some record →
      processRequest hashPath maxStoreBytes rs req handler
        = { response := replayStoredResponse record, redis := rs, handlerRan := false }
      ∧ (processRequest hashPath maxStoreBytes rs req handler).response.status
          = (if record.status == 0 then 200 else record.status)
      ∧ (processRequest hashPath maxStoreBytes rs req handler).response.headers
          = record.headers
      ∧ (processRequest hashPath maxStoreBytes rs req handler).response.body
          = (if record.isJson then Payload.obj (record.bodyJson.getD "null")
             else Payload.buf (record.bodyBase64.getD "")) := by
  intro hashPath maxB rs req handler key record htm hhdr hkey hval hget
  have h1 : processRequest hashPath maxB rs req handler
      = { response := replayStoredResponse record, redis := rs, handlerRan := false } := by
    simp [processRequest, htm, hhdr, hkey, hval, hget]
  refine ⟨h1, ?_, ?_, ?_⟩ <;> rw [h1] <;> rfl

/-- Witness for C1 at a concrete stored result: the reply is the stored one
and the handler does not run. -/
theorem idem_replay_witness :
    processRequest (fun p => p) 262144 idemSampleRedis idemSampleReq sampleHandler
      = { response := replayStoredResponse storedSample, redis := idemSampleRedis,
          handlerRan := false } :=
  (idem_replay_spec (fun p => p) 262144 idemSampleRedis idemSampleReq sampleHandler
    "0123456789abcdef" storedSample (by decide) rfl (by decide) (by decide) (by decide)).1

/-- **C9.** `validateKey` accepts exactly the 16..200-character URL-safe
keys; on a mutating request a present, non-empty, invalid key is answered
with status 400 without invoking the handler or touching Redis; and on a
route guarded by `requireIdempotency`, an absent or invalid key on a mutating
request is answered with status 400. -/
theorem idem_key_validation_spec :
    (∀ key : String, validateKey key = true ↔
      (16 ≤ key.length ∧ key.length ≤ 200 ∧ ∀ c ∈ key.data, isUrlSafeKeyChar c = true))
    ∧ (∀ (hashPath : String → String) (maxB : Nat) (rs : RedisState) (req : Request)
        (handler : Request → HandlerResult) (key : String),
      targetMethod req.method = true → req.idemHeader = some key →
      (key == "") = false → validateKey key = false →
      processRequest hashPath maxB rs req handler
        = { response := idemError 400 "IDEMPOTENCY_KEY_INVALID", redis := rs,
            handlerRan := false })
    ∧ (∀ req : Request, targetMethod req.method = true →
      (req.idemHeader = none ∨ ∃ key, req.idemHeader = some key ∧ validateKey key = false) →
      requireIdempotency req = some (idemError 400 "IDEMPOTENCY_KEY_REQUIRED")) := by
  refine ⟨fun key => ?_, fun hashPath maxB rs req handler key htm hhdr hkey hval => ?_,
    fun req htm habs => ?_⟩
  · simp only [validateKey, Bool.and_eq_true, Bool.not_eq_true', beq_eq_false_iff_ne,
      decide_eq_true_eq, List.all_eq_true]
    constructor
    · rintro ⟨⟨⟨hne, h1⟩, h2⟩, h3⟩
      exact ⟨h1, h2, h3⟩
    · rintro ⟨h1, h2, h3⟩
      refine ⟨⟨⟨?_, h1⟩, h2⟩, h3⟩
      intro he
      subst he
      exact absurd h1 (by decide)
  · simp [processRequest, htm, hhdr, hkey, hval]
  · have hemp : validateKey "" = false := by decide
    rcases habs with hnone | ⟨key, hsome, hval⟩
    · simp [requireIdempotency, htm, hnone, hemp]
    · simp [requireIdempotency, htm, hsome, hval]

/-- Witness for C9: a valid key is accepted; `"short"` draws a 400 from the
global middleware without running the handler; an absent key draws a 400 from
`requireIdempotency`. -/
theorem idem_key_validation_witness :
    validateKey "0123456789abcdef" = true
    ∧ processRequest (fun p => p) 262144 { stored := [], locks := [] }
        { idemSampleReq with idemHeader := some "short" } sampleHandler
      = { response := idemError 400 "IDEMPOTENCY_KEY_INVALID",
          redis := { stored := [], locks := [] }, handlerRan := false }
    ∧ requireIdempotency { idemSampleReq with idemHeader := none }
      = some (idemError 400 "IDEMPOTENCY_KEY_REQUIRED") :=
  ⟨(idem_key_validation_spec.1 "0123456789abcdef").mpr
      ⟨by decide, by decide, by decide⟩,
   idem_key_validation_spec.2.1 (fun p => p) 262144 { stored := [], locks := [] }
      { idemSampleReq with idemHeader := some "short" } sampleHandler "short"
      (by decide) rfl (by decide) (by decide),
   idem_key_validation_spec.2.2 { idemSampleReq with idemHeader := none }
      (by decide) (Or.inl rfl)⟩

/-- **C10.** Every `updateStatus` write preserves the invariant
`quarantined = true → antivirus_status ≠ clean`, and an error verdict
(clamd timeout, socket error, or unrecognized response all surface as
`ScanResult.scanError`) quarantines the record with status `error`, exactly
like an infection quarantines it with status `infected`. -/
theorem updateStatus_invariant :
    (∀ (res : ScanResult) (r : MediaRecord), avInvariantOk (updateStatus res r) = true)
    ∧ (∀ (e : String) (r : MediaRecord),
        (updateStatus (ScanResult.scanError e) r).quarantined = true
        ∧ (updateStatus (ScanResult.scanError e) r).antivirusStatus = AvStatus.error)
    ∧ (∀ (sig : String) (r : MediaRecord),
        (updateStatus (ScanResult.infected sig) r).quarantined = true
        ∧ (updateStatus (ScanResult.infected sig) r).antivirusStatus = AvStatus.infected) := by
  refine ⟨fun res r => ?_, fun e r => ⟨rfl, rfl⟩, fun sig r => ⟨rfl, rfl⟩⟩
  cases res <;> rfl

end Messenger
